import Mathlib

set_option linter.unusedVariables false

/-!
Formal model of the `asn_block` repository (two Python scripts,
`asn_block.py` and `iptables_asn_block.py`).

The development is organised as follows.

* Python string primitives used by the scripts (`strip`, `split`,
  `startswith`, decimal/hex conversion) are modelled as structural
  functions on `String.data`, so that all of them evaluate inside the
  kernel.
* The parts of the Python `ipaddress` standard library that the scripts
  invoke (`ip_address` parsing for IPv4/IPv6, network string rendering,
  and `summarize_address_range`, the core range-to-CIDR reduction) are
  transcribed here.
* Each script is modelled as a trace-producing function over an explicit
  `SystemState`: every `subprocess` invocation becomes an `Event.run`
  carrying the argv list, every `[DRY-RUN] Would run:` print becomes an
  `Event.wouldRun` carrying the argv list it renders, and a raised
  exception is modelled by an `Option` result of `none` together with the
  events emitted before the raise.
-/

/-! ## Python string primitives -/

/-- Whitespace characters removed by Python's `str.strip()` (ASCII range). -/
def isPySpace (c : Char) : Bool :=
  c = ' ' || c = '\t' || c = '\n' || c = '\r' || c = Char.ofNat 11 || c = Char.ofNat 12

/-- Model of Python `str.strip()`. -/
def py_strip (s : String) : String :=
  ⟨((s.data.dropWhile isPySpace).reverse.dropWhile isPySpace).reverse⟩

/-- Split a character list at every occurrence of `sep` (no collapsing),
the list-level core of Python `str.split(sep)` for a one-character `sep`. -/
def splitOnChar (sep : Char) : List Char → List (List Char)
  | [] => [[]]
  | c :: cs =>
    if c = sep then [] :: splitOnChar sep cs
    else
      match splitOnChar sep cs with
      | [] => [[c]]
      | l :: ls => (c :: l) :: ls

/-- Model of Python `str.split(sep)` for a one-character separator. -/
def py_split (s : String) (sep : Char) : List String :=
  (splitOnChar sep s.data).map (fun l => ⟨l⟩)

/-- Model of Python `str.startswith(p)`. -/
def py_startswith (s p : String) : Bool :=
  p.data.isPrefixOf s.data

/-- Model of Python `sep.join(parts)`. -/
def py_join (sep : String) : List String → String
  | [] => ""
  | [p] => p
  | p :: ps => p ++ sep ++ py_join sep ps

/-- Model of Python `c in s` for a single character. -/
def py_contains (s : String) (c : Char) : Bool :=
  s.data.contains c

/-- Numeric value of a decimal digit list (all characters assumed decimal
digits), as computed by Python `int(s, 10)`. -/
def digitsToNat : List Char → Nat → Nat
  | [], acc => acc
  | c :: cs, acc => digitsToNat cs (acc * 10 + (c.toNat - 48))

/-- Value of a hexadecimal digit character. -/
def hexDigitVal (c : Char) : Nat :=
  if c.toNat ≥ 97 then c.toNat - 87
  else if c.toNat ≥ 65 then c.toNat - 55
  else c.toNat - 48

/-- Numeric value of a hex digit list, as computed by Python `int(s, 16)`. -/
def hexToNat : List Char → Nat → Nat
  | [], acc => acc
  | c :: cs, acc => hexToNat cs (acc * 16 + hexDigitVal c)

/-- Hexadecimal digit character (lowercase), for Python `'%x'` rendering. -/
def hexChar (n : Nat) : Char :=
  if n < 10 then Char.ofNat (48 + n) else Char.ofNat (87 + n)

/-- Digit accumulator for lowercase hexadecimal rendering. -/
def hexStringAux : Nat → List Char → List Char
  | 0, acc => acc
  | n + 1, acc => hexStringAux ((n + 1) / 16) (hexChar ((n + 1) % 16) :: acc)
decreasing_by exact Nat.div_lt_self (Nat.succ_pos n) (by omega)

/-- Model of Python `'%x' % n`: lowercase hexadecimal, no padding. -/
def hexString (n : Nat) : String :=
  if n = 0 then "0" else ⟨hexStringAux n []⟩

/-- Character predicate for Python's `_HEX_DIGITS` set. -/
def isHexDigitChar (c : Char) : Bool :=
  c.isDigit || ('a' ≤ c && c ≤ 'f') || ('A' ≤ c && c ≤ 'F')

/-! ## `ipaddress` standard library: IPv4 parsing -/

/-- Transcription of `ipaddress._BaseV4._parse_octet`: a decimal octet is
1-3 ASCII digits, without leading zeros, with value at most 255. -/
def parse_octet (s : String) : Option Nat :=
  if s.data = [] then none
  else if ¬ s.data.all Char.isDigit then none
  else if s.data.length > 3 then none
  else if s.data ≠ ['0'] ∧ s.data.headD ' ' = '0' then none
  else
    let v := digitsToNat s.data 0
    if v > 255 then none else some v

/-- Transcription of `ipaddress._BaseV4._ip_int_from_string`: four
dot-separated octets assembled big-endian. -/
def ipv4_from_string (s : String) : Option Nat :=
  if s.data = [] then none
  else
    let octets := py_split s '.'
    if octets.length ≠ 4 then none
    else
      match octets.mapM parse_octet with
      | some [a, b, c, d] => some (((a * 256 + b) * 256 + c) * 256 + d)
      | _ => none

/-! ## `ipaddress` standard library: IPv6 parsing -/

/-- Transcription of `_BaseV6._parse_hextet`: up to 4 hex digits; the
empty string fails at `int('', 16)`. -/
def parse_hextet (s : String) : Option Nat :=
  if ¬ s.data.all isHexDigitChar then none
  else if s.data.length > 4 then none
  else if s.data = [] then none
  else some (hexToNat s.data 0)

/-- Big-endian assembly of the hextets around a `::` gap, transcribing the
final loop of `_BaseV6._ip_int_from_string` (`ip_int <<= 16; ip_int |= hextet`). -/
def assembleHextets (hi : List String) (skipped : Nat) (lo : List String) : Option Nat :=
  match hi.mapM parse_hextet, lo.mapM parse_hextet with
  | some hv, some lv =>
    let x := hv.foldl (fun acc v => (acc <<< 16) ||| v) 0
    some (lv.foldl (fun acc v => (acc <<< 16) ||| v) (x <<< (16 * skipped)))
  | _, _ => none

/-- Transcription of `_BaseV6._ip_int_from_string`. -/
def ipv6_from_string (s : String) : Option Nat :=
  if s.data = [] then none
  else
    let parts0 := py_split s ':'
    if parts0.length < 3 then none
    else
      let withV4 : Option (List String) :=
        if py_contains (parts0.getLastD "") '.' then
          match ipv4_from_string (parts0.getLastD "") with
          | none => none
          | some v4 =>
            some (parts0.dropLast ++
              [hexString ((v4 >>> 16) &&& 0xFFFF), hexString (v4 &&& 0xFFFF)])
        else some parts0
      match withV4 with
      | none => none
      | some parts =>
        if parts.length > 9 then none
        else
          let empties := (List.range parts.length).filter
            (fun i => 1 ≤ i ∧ i + 1 < parts.length ∧ parts.getD i " " = "")
          match empties with
          | _ :: _ :: _ => none
          | [skipIndex] =>
            if parts.headD " " = "" ∧ skipIndex - 1 ≠ 0 then none
            else
              let partsHi := if parts.headD " " = "" then skipIndex - 1 else skipIndex
              let lo0 := parts.length - skipIndex - 1
              if parts.getLastD " " = "" ∧ lo0 - 1 ≠ 0 then none
              else
                let partsLo := if parts.getLastD " " = "" then lo0 - 1 else lo0
                if 8 < partsHi + partsLo + 1 then none
                else
                  assembleHextets (parts.take partsHi) (8 - (partsHi + partsLo))
                    (parts.drop (parts.length - partsLo))
          | [] =>
            if parts.length ≠ 8 then none
            else if parts.headD " " = "" then none
            else if parts.getLastD " " = "" then none
            else assembleHextets parts 0 []

/-! ## `ipaddress` standard library: rendering and `ip_address` -/

/-- Model of `str(IPv4Address)`: dotted decimal, big-endian bytes. -/
def ipv4_str (ip : Nat) : String :=
  py_join "."
    ([(ip >>> 24) &&& 255, (ip >>> 16) &&& 255, (ip >>> 8) &&& 255, ip &&& 255].map
      (fun b => toString b))

/-- Hextet strings of a 128-bit value, as sliced out of `'%032x' % ip`
by `_BaseV6._string_from_ip_int`. -/
def ipv6_hextets (ip : Nat) : List String :=
  (List.range 8).map (fun i => hexString ((ip >>> (16 * (7 - i))) &&& 0xFFFF))

/-- Transcription of `_BaseV6._compress_hextets`: replace the longest (and
on ties, first) run of at least two `"0"` fields with an empty field. -/
def compress_hextets (hextets : List String) : List String :=
  let st := hextets.enum.foldl
    (fun (acc : Nat × Nat × Nat × Nat) (p : Nat × String) =>
      let (bestStart, bestLen, curStart, curLen) := acc
      if p.2 = "0" then
        let curStart' := if curLen = 0 then p.1 else curStart
        let curLen' := curLen + 1
        if curLen' > bestLen then (curStart', curLen', curStart', curLen')
        else (bestStart, bestLen, curStart', curLen')
      else (bestStart, bestLen, 0, 0))
    (0, 0, 0, 0)
  let bestStart := st.1
  let bestLen := st.2.1
  if bestLen > 1 then
    let bestEnd := bestStart + bestLen
    let hx := if bestEnd = hextets.length then hextets ++ [""] else hextets
    let spliced := hx.take bestStart ++ [""] ++ hx.drop bestEnd
    if bestStart = 0 then "" :: spliced else spliced
  else hextets

/-- Model of `str(IPv6Address)`: compressed hexadecimal notation. -/
def ipv6_str (ip : Nat) : String :=
  py_join ":" (compress_hextets (ipv6_hextets ip))

/-- Address version tag (`IPv4Address` versus `IPv6Address`). -/
inductive IpVersion
  | v4
  | v6
deriving DecidableEq, Repr

/-- Address width in bits (`_max_prefixlen`). -/
def addrBits : IpVersion → Nat
  | .v4 => 32
  | .v6 => 128

/-- A parsed IP address: a version tag and the address integer. -/
structure IpAddr where
  version : IpVersion
  val : Nat
deriving DecidableEq, Repr

/-- Transcription of `ipaddress.ip_address`: try `IPv4Address`, then
`IPv6Address`; `none` models the final `ValueError`. -/
def ip_address (s : String) : Option IpAddr :=
  match ipv4_from_string s with
  | some n => some ⟨.v4, n⟩
  | none =>
    match ipv6_from_string s with
    | some n => some ⟨.v6, n⟩
    | none => none

/-! ## `ipaddress.summarize_address_range` -/

/-- Model of Python `int.bit_length()` on naturals. -/
def bit_length (n : Nat) : Nat := Nat.size n

/-- Transcription of `ipaddress._count_righthand_zero_bits`. On a
nonnegative arbitrary-precision integer `n > 0`, the two's-complement
expression `~n & (n-1)` equals `(n-1) - ((n-1) &&& n)`. -/
def count_righthand_zero_bits (number bits : Nat) : Nat :=
  if number = 0 then bits
  else min bits (bit_length ((number - 1) - ((number - 1) &&& number)))

/-- A CIDR block: aligned first address and prefix length. -/
structure CidrBlock where
  network : Nat
  prefixLen : Nat
deriving DecidableEq, Repr

/-- Number of addresses in a block of the given prefix length. -/
def blockSize (bits : Nat) (b : CidrBlock) : Nat := 2 ^ (bits - b.prefixLen)

/-- The `nbits` chosen by one iteration of `summarize_address_range`:
the largest aligned power-of-two block at `first` that fits in
`[first, last]`. -/
def summarize_nbits (bits first last : Nat) : Nat :=
  min (count_righthand_zero_bits first bits) (bit_length (last - first + 1) - 1)

/-- Transcription of the loop of `ipaddress.summarize_address_range` on
address integers (the generator validates `first <= last` and equal
versions before this loop; `iprange_to_cidr` below performs those checks). -/
def summarize_address_range (bits first last : Nat) : List CidrBlock :=
  if first ≤ last then
    if first + (1 <<< summarize_nbits bits first last) - 1 = 2 ^ bits - 1 then
      [⟨first, bits - summarize_nbits bits first last⟩]
    else
      ⟨first, bits - summarize_nbits bits first last⟩ ::
        summarize_address_range bits (first + (1 <<< summarize_nbits bits first last)) last
  else []
termination_by last + 1 - first
decreasing_by
  have h2 : 0 < 2 ^ summarize_nbits bits first last := Nat.two_pow_pos _
  rw [Nat.shiftLeft_eq, Nat.one_mul]
  omega

/-- Rendered CIDR string `str(net)` of a summarized network. -/
def net_str (v : IpVersion) (b : CidrBlock) : String :=
  (match v with
    | .v4 => ipv4_str b.network
    | .v6 => ipv6_str b.network) ++ "/" ++ toString b.prefixLen

/-- Transcription of `iprange_to_cidr` (identical in both scripts): parse
the endpoint strings with `ip_address`, then reduce with
`summarize_address_range`; `none` models a raised exception (unparseable
endpoint, mixed versions, or a reversed range). -/
def iprange_to_cidr (start_ip end_ip : String) : Option (IpVersion × List CidrBlock) :=
  match ip_address start_ip, ip_address end_ip with
  | some st, some en =>
    if st.version ≠ en.version then none
    else if en.val < st.val then none
    else some (st.version, summarize_address_range (addrBits st.version) st.val en.val)
  | _, _ => none

/-- CIDR strings produced by iterating `iprange_to_cidr` and rendering
each network with `str(net)`. -/
def iprange_cidr_strings (start_ip end_ip : String) : Option (List String) :=
  match iprange_to_cidr start_ip end_ip with
  | none => none
  | some (v, bs) => some (bs.map (net_str v))

/-- Exact consecutive cover: the blocks of `l` tile `[lo, hi]` in order,
each block inside the interval, with no gap and no overlap. -/
def coversExactly (bits : Nat) : List CidrBlock → Nat → Nat → Prop
  | [], lo, hi => lo = hi + 1
  | b :: rest, lo, hi =>
    b.network = lo ∧ lo + blockSize bits b ≤ hi + 1 ∧
      coversExactly bits rest (lo + blockSize bits b) hi

/-- Two blocks are the two halves of a common parent block of twice the
size: equal prefix lengths of at least 1, the first half aligned to the
parent, the second half immediately following the first. -/
def halvesOfParent (bits : Nat) (b1 b2 : CidrBlock) : Prop :=
  1 ≤ b1.prefixLen ∧ b1.prefixLen = b2.prefixLen ∧
    2 ^ (bits - b1.prefixLen + 1) ∣ b1.network ∧
    b2.network = b1.network + 2 ^ (bits - b1.prefixLen)

/-! ## Observable events and command classification -/

/-- An observable step of a script run: an executed subprocess command
(argv list), a printed `[DRY-RUN] Would run:` description (the argv list
whose space-joined form is printed), or an HTTP dataset download. -/
inductive Event where
  | run : List String → Event
  | wouldRun : List String → Event
  | fetch : String → Event
deriving DecidableEq, Repr

def BIN_SYSTEMCTL : String := "/bin/systemctl"
def BIN_FIREWALL_CMD : String := "/usr/bin/firewall-cmd"
def BIN_UFW : String := "/usr/sbin/ufw"
def BIN_IPSET : String := "/sbin/ipset"
def BIN_IPTABLES : String := "/sbin/iptables"
def BIN_IP6TABLES : String := "/sbin/ip6tables"
def IPTOASN_V4_URL : String := "https://iptoasn.com/data/ip2asn-v4.tsv.gz"
def IPTOASN_V6_URL : String := "https://iptoasn.com/data/ip2asn-v6.tsv.gz"

/-- Classification of issued commands: every command the scripts issue
mutates system state except the pure queries `systemctl is-active`,
`ipset list` and `iptables -C`. -/
def mutatingCmd (cmd : List String) : Bool :=
  match cmd with
  | [] => false
  | b :: rest =>
    if b = BIN_SYSTEMCTL then false
    else if b = BIN_IPSET then rest.headD "" ≠ "list"
    else if b = BIN_IPTABLES ∨ b = BIN_IP6TABLES then rest.headD "" ≠ "-C"
    else true

/-- Mutating commands actually executed in a trace. -/
def mutTrace (t : List Event) : List (List String) :=
  t.filterMap (fun e => match e with
    | .run c => if mutatingCmd c then some c else none
    | _ => none)

/-- Dry-run command descriptions printed in a trace. -/
def wouldTrace (t : List Event) : List (List String) :=
  t.filterMap (fun e => match e with
    | .wouldRun c => some c
    | _ => none)

/-- The INPUT-chain rule body inserted, checked or deleted for a named
set (the arguments following the binary and the chain operation). -/
def set_match_rule (ipset_name : String) : List String :=
  ["-m", "set", "--match-set", ipset_name, "src", "-j", "DROP"]

/-- Effect on the INPUT chain of `iptables -I INPUT <rule>`: prepend. -/
def insert_rule (chain : List (List String)) (rule : List String) :
    List (List String) :=
  rule :: chain

namespace AsnBlock

/-- Ambient system state observed by one invocation of `asn_block.py`:
activation of the queried services, success of `ipset list` per set name,
the cached dataset files (`none` models a missing file), and the remote
dataset contents a download would retrieve. -/
structure SystemState where
  firewalldActive : Bool
  ufwActive : Bool
  iptablesActive : Bool
  ip6tablesActive : Bool
  ipsetListOk : String → Bool
  datasetV4 : Option (List String)
  datasetV6 : Option (List String)
  remoteV4 : List String
  remoteV6 : List String

/-- Activation status reported by `systemctl is-active --quiet <svc>`. -/
def serviceActive (s : SystemState) (svc : String) : Bool :=
  if svc = "firewalld" then s.firewalldActive
  else if svc = "ufw" then s.ufwActive
  else if svc = "iptables" then s.iptablesActive
  else if svc = "ip6tables" then s.ip6tablesActive
  else false

/-- Transcription of `is_service_active`. -/
def is_service_active (s : SystemState) (svc : String) : List Event × Bool :=
  ([.run [BIN_SYSTEMCTL, "is-active", "--quiet", svc]], serviceActive s svc)

/-- Transcription of `validate_asn`; the `isinstance` conjunct holds for
every `Nat`. -/
def validate_asn (asn : Nat) : Bool :=
  0 < asn && asn < 4294967295

/-- Transcription of `detect_firewall_backend`; the Python `or` between
the `iptables` and `ip6tables` queries short-circuits. -/
def detect_firewall_backend (s : SystemState) : List Event × String :=
  let q1 := is_service_active s "firewalld"
  let q2 := is_service_active s "ufw"
  let q3 := is_service_active s "iptables"
  let q4 := if q3.2 then ([], true) else is_service_active s "ip6tables"
  let trace := q1.1 ++ q2.1 ++ q3.1 ++ q4.1
  let cnt := (if q1.2 then 1 else 0) + (if q2.2 then 1 else 0) + (if q4.2 then 1 else 0)
  (trace,
    if cnt > 1 then "conflict"
    else if q1.2 then "firewalld"
    else if q2.2 then "ufw"
    else if q4.2 then "iptables"
    else "unknown")

/-- One step of the `parse_dataset` generator on one line: `none` models a
raised `IndexError` (fewer than three tab-separated fields), `some none` a
silently skipped or non-matching line, `some (some (start, end))` a
yielded pair. Lines are modelled without their trailing newline, which
`str.strip` removes anyway. -/
def parse_line (asn : Nat) (line : String) : Option (Option (String × String)) :=
  if py_startswith line "#" || py_strip line = "" then some none
  else
    match py_split (py_strip line) '\t' with
    | p0 :: p1 :: p2 :: _ =>
      if p2 = toString asn then some (some (p0, p1)) else some none
    | _ => none

/-- Transcription of `parse_dataset`, run to completion: the yielded
`(start, end)` pairs in order, or `none` when some line raises. -/
def parse_dataset (lines : List String) (asn : Nat) :
    Option (List (String × String)) :=
  match lines with
  | [] => some []
  | l :: ls =>
    match parse_line asn l with
    | none => none
    | some none => parse_dataset ls asn
    | some (some p) =>
      match parse_dataset ls asn with
      | none => none
      | some rest => some (p :: rest)

/-- Transcription of `create_or_reset_ipset`: query `ipset list`, destroy
when present, then create. -/
def create_or_reset_ipset (s : SystemState) (ipset_name version : String)
    (dry_run : Bool) : List Event :=
  [Event.run [BIN_IPSET, "list", ipset_name]] ++
  (if s.ipsetListOk ipset_name then
    if dry_run then [Event.wouldRun [BIN_IPSET, "destroy", ipset_name]]
    else [Event.run [BIN_IPSET, "destroy", ipset_name]]
  else []) ++
  (let cmd := [BIN_IPSET, "create", ipset_name, "hash:net", "family",
      if version = "v6" then "inet6" else "inet"]
   if dry_run then [Event.wouldRun cmd] else [Event.run cmd])

/-- Transcription of `add_ip_to_ipset`. -/
def add_ip_to_ipset (ipset_name cidr : String) (dry_run : Bool) : List Event :=
  let cmd := [BIN_IPSET, "add", ipset_name, cidr]
  if dry_run then [Event.wouldRun cmd] else [Event.run cmd]

/-- Transcription of `apply_firewalld_rule` (zone `block`). -/
def apply_firewalld_rule (ipset_name : String) (dry_run : Bool) : List Event :=
  let cmd_add := [BIN_FIREWALL_CMD, "--permanent", "--zone=block",
    "--add-source=ipset:" ++ ipset_name]
  let cmd_reload := [BIN_FIREWALL_CMD, "--reload"]
  if dry_run then [Event.wouldRun cmd_add, Event.wouldRun cmd_reload]
  else [Event.run cmd_add, Event.run cmd_reload]

/-- Transcription of `remove_firewalld_rule`. -/
def remove_firewalld_rule (ipset_name : String) (dry_run : Bool) : List Event :=
  let cmd_del := [BIN_FIREWALL_CMD, "--permanent", "--zone=block",
    "--remove-source=ipset:" ++ ipset_name]
  let cmd_reload := [BIN_FIREWALL_CMD, "--reload"]
  if dry_run then [Event.wouldRun cmd_del, Event.wouldRun cmd_reload]
  else [Event.run cmd_del, Event.run cmd_reload]

/-- Transcription of `apply_ufw_rule`: one `ufw deny` per CIDR. -/
def apply_ufw_rule (cidr_list : List String) (dry_run : Bool) : List Event :=
  cidr_list.flatMap (fun cidr =>
    if dry_run then [Event.wouldRun [BIN_UFW, "deny", "from", cidr]]
    else [Event.run [BIN_UFW, "deny", "from", cidr]])

/-- Transcription of `remove_ufw_rule`: one `ufw delete deny` per CIDR. -/
def remove_ufw_rule (cidr_list : List String) (dry_run : Bool) : List Event :=
  cidr_list.flatMap (fun cidr =>
    if dry_run then [Event.wouldRun [BIN_UFW, "delete", "deny", "from", cidr]]
    else [Event.run [BIN_UFW, "delete", "deny", "from", cidr]])

/-- Transcription of `apply_iptables_rule`: an unconditional
`iptables -I INPUT`, with no existence check. -/
def apply_iptables_rule (cmd_path ipset_name : String) (dry_run : Bool) :
    List Event :=
  let rule := [cmd_path, "-I", "INPUT"] ++ set_match_rule ipset_name
  if dry_run then [Event.wouldRun rule] else [Event.run rule]

/-- Transcription of `remove_iptables_rule`. -/
def remove_iptables_rule (cmd_path ipset_name : String) (dry_run : Bool) :
    List Event :=
  let rule := [cmd_path, "-D", "INPUT"] ++ set_match_rule ipset_name
  if dry_run then [Event.wouldRun rule] else [Event.run rule]

/-- Effect on the INPUT chain of a live `apply_iptables_rule`: an
unconditional prepend (`-I`), without any check for an existing rule. -/
def apply_rule_unguarded (chain : List (List String)) (ipset_name : String) :
    List (List String) :=
  insert_rule chain (set_match_rule ipset_name)

/-- Filter applied by `download_file` in `asn_block.py`: keep lines whose
stripped form matches `^\S+\t\S+\t\d+(?:\t.+)?$`. -/
def dataset_line_keep (line : String) : Bool :=
  match py_split (py_strip line) '\t' with
  | p0 :: p1 :: p2 :: _ =>
    p0 ≠ "" && p0.data.all (fun c => ¬ isPySpace c) &&
    p1 ≠ "" && p1.data.all (fun c => ¬ isPySpace c) &&
    p2 ≠ "" && p2.data.all Char.isDigit
  | _ => false

/-- Transcription of `update_datasets`: download both datasets; the cache
then holds the remote lines kept by the `download_file` filter. -/
def update_datasets (s : SystemState) : List Event × SystemState :=
  ([Event.fetch IPTOASN_V4_URL, Event.fetch IPTOASN_V6_URL],
   { s with datasetV4 := some (s.remoteV4.filter dataset_line_keep),
            datasetV6 := some (s.remoteV6.filter dataset_line_keep) })

/-- Transcription of `ensure_datasets`: download when either cached file
is missing. -/
def ensure_datasets (s : SystemState) : List Event × SystemState :=
  if s.datasetV4.isNone || s.datasetV6.isNone then update_datasets s
  else ([], s)

/-- Contents of `FILES[version]`; `none` models a missing file whose
`open` raises `FileNotFoundError`. -/
def dataset_file (s : SystemState) (version : String) : Option (List String) :=
  if version = "v6" then s.datasetV6 else s.datasetV4

/-- The population loop of `create_ipset_and_rules`: for each yielded
`(start, end)` pair, add every summarized CIDR string to the ipset and
append it to `cidr_list`; `none` models an exception escaping the loop,
with the events emitted before the raise kept in the first component. -/
def populate_loop (asn : Nat) (ipset_name : String) (dry_run : Bool) :
    List String → List Event × Option (List String)
  | [] => ([], some [])
  | l :: ls =>
    match parse_line asn l with
    | none => ([], none)
    | some none => populate_loop asn ipset_name dry_run ls
    | some (some (st, en)) =>
      match iprange_cidr_strings st en with
      | none => ([], none)
      | some cidrs =>
        let evs := (cidrs.map (fun c => add_ip_to_ipset ipset_name c dry_run)).flatten
        match populate_loop asn ipset_name dry_run ls with
        | (evs2, none) => (evs ++ evs2, none)
        | (evs2, some rest) => (evs ++ evs2, some (cidrs ++ rest))

/-- Per-version body of the loop in `create_ipset_and_rules`. -/
def block_version (s : SystemState) (asn : Nat) (firewall version : String)
    (dry_run : Bool) : List Event × Option Unit :=
  let ipset_name := "ASN" ++ toString asn ++ "_" ++ version
  let t1 := create_or_reset_ipset s ipset_name version dry_run
  match dataset_file s version with
  | none => (t1, none)
  | some lines =>
    match populate_loop asn ipset_name dry_run lines with
    | (t2, none) => (t1 ++ t2, none)
    | (t2, some cidr_list) =>
      let t3 :=
        if firewall = "iptables" then
          apply_iptables_rule (if version = "v4" then BIN_IPTABLES else BIN_IP6TABLES)
            ipset_name dry_run
        else if firewall = "firewalld" then apply_firewalld_rule ipset_name dry_run
        else if firewall = "ufw" then apply_ufw_rule cidr_list dry_run
        else []
      (t1 ++ t2 ++ t3, some ())

/-- Transcription of `create_ipset_and_rules` (the block operation). -/
def create_ipset_and_rules (s : SystemState) (asn : Nat) (dry_run : Bool) :
    List Event × Option Unit :=
  if ¬ validate_asn asn then ([], some ())
  else
    let d := detect_firewall_backend s
    if d.2 = "conflict" then (d.1, some ())
    else
      let e := ensure_datasets s
      match block_version e.2 asn d.2 "v4" dry_run with
      | (t4, none) => (d.1 ++ e.1 ++ t4, none)
      | (t4, some _) =>
        match block_version e.2 asn d.2 "v6" dry_run with
        | (t6, r) => (d.1 ++ e.1 ++ t4 ++ t6, r)

/-- The CIDR recomputation loop of `cleanup_ipsets`, which only collects
the strings and issues no command. -/
def cleanup_cidr_loop (asn : Nat) : List String → Option (List String)
  | [] => some []
  | l :: ls =>
    match parse_line asn l with
    | none => none
    | some none => cleanup_cidr_loop asn ls
    | some (some (st, en)) =>
      match iprange_cidr_strings st en with
      | none => none
      | some cidrs =>
        match cleanup_cidr_loop asn ls with
        | none => none
        | some rest => some (cidrs ++ rest)

/-- Per-version body of the loop in `cleanup_ipsets`; note the dataset is
reopened and reparsed, and the final `ipset destroy` always runs. -/
def cleanup_version (s : SystemState) (asn : Nat) (firewall version : String)
    (dry_run : Bool) : List Event × Option Unit :=
  let ipset_name := "ASN" ++ toString asn ++ "_" ++ version
  match dataset_file s version with
  | none => ([], none)
  | some lines =>
    match cleanup_cidr_loop asn lines with
    | none => ([], none)
    | some cidr_list =>
      let t3 :=
        if firewall = "iptables" then
          remove_iptables_rule (if version = "v4" then BIN_IPTABLES else BIN_IP6TABLES)
            ipset_name dry_run
        else if firewall = "firewalld" then remove_firewalld_rule ipset_name dry_run
        else if firewall = "ufw" then remove_ufw_rule cidr_list dry_run
        else []
      let t4 :=
        if dry_run then [Event.wouldRun [BIN_IPSET, "destroy", ipset_name]]
        else [Event.run [BIN_IPSET, "destroy", ipset_name]]
      (t3 ++ t4, some ())

/-- Transcription of `cleanup_ipsets` (the unblock operation); it neither
checks that the datasets exist nor downloads them. -/
def cleanup_ipsets (s : SystemState) (asn : Nat) (dry_run : Bool) :
    List Event × Option Unit :=
  if ¬ validate_asn asn then ([], some ())
  else
    let d := detect_firewall_backend s
    if d.2 = "conflict" then (d.1, some ())
    else
      match cleanup_version s asn d.2 "v4" dry_run with
      | (t4, none) => (d.1 ++ t4, none)
      | (t4, some _) =>
        match cleanup_version s asn d.2 "v6" dry_run with
        | (t6, r) => (d.1 ++ t4 ++ t6, r)

end AsnBlock

namespace IptablesAsnBlock

/-- Ambient state observed by one invocation of `iptables_asn_block.py`. -/
structure SystemState where
  datasetV4 : Option (List String)
  datasetV6 : Option (List String)
  remoteV4 : List String
  remoteV6 : List String
  ruleExists : String → Bool

/-- Transcription of `validate_asn` (identical to the other script). -/
def validate_asn (asn : Nat) : Bool :=
  0 < asn && asn < 4294967295

/-- Download filter of this script: `^\d+\t\d+\t\d+$` (exactly three
all-digit fields). -/
def dataset_line_keep (line : String) : Bool :=
  match py_split (py_strip line) '\t' with
  | [p0, p1, p2] =>
    p0 ≠ "" && p0.data.all Char.isDigit &&
    p1 ≠ "" && p1.data.all Char.isDigit &&
    p2 ≠ "" && p2.data.all Char.isDigit
  | _ => false

/-- One line of this script's `parse_dataset`: the tuple unpacking
`start, end, record_asn = line.strip().split("\t")` requires exactly
three fields and otherwise raises `ValueError` (`none`). -/
def parse_line (asn : Nat) (line : String) : Option (Option (String × String)) :=
  if py_startswith line "#" || py_strip line = "" then some none
  else
    match py_split (py_strip line) '\t' with
    | [p0, p1, p2] =>
      if p2 = toString asn then some (some (p0, p1)) else some none
    | _ => none

/-- Transcription of this script's `parse_dataset`, run to completion. -/
def parse_dataset (lines : List String) (asn : Nat) :
    Option (List (String × String)) :=
  match lines with
  | [] => some []
  | l :: ls =>
    match parse_line asn l with
    | none => none
    | some none => parse_dataset ls asn
    | some (some p) =>
      match parse_dataset ls asn with
      | none => none
      | some rest => some (p :: rest)

/-- Effect of the guarded rule application in this script's
`create_ipset_and_rules` (live mode): `iptables -C` checks whether an
identical INPUT rule already exists and `-I` inserts only when it does
not. -/
def apply_rule_guarded (chain : List (List String)) (ipset_name : String) :
    List (List String) :=
  if set_match_rule ipset_name ∈ chain then chain
  else insert_rule chain (set_match_rule ipset_name)

/-- Transcription of this script's `cleanup_ipsets`: it has no dry-run
parameter and always issues the rule deletion and the set destruction for
both IP versions. -/
def cleanup_ipsets (asn : Nat) : List Event :=
  if ¬ validate_asn asn then []
  else
    (["v4", "v6"].map (fun version =>
      let ipset_name := "ASN" ++ toString asn ++ "_" ++ version
      let cmd := if version = "v4" then BIN_IPTABLES else BIN_IP6TABLES
      [Event.run ([cmd, "-D", "INPUT"] ++ set_match_rule ipset_name),
       Event.run [BIN_IPSET, "destroy", ipset_name]])).flatten

/-- Transcription of the `unblock` branch of this script's `main`: the
parsed `--dry-run` flag is ignored, `cleanup_ipsets` receives no such
argument (`if not args.asn` also rejects `0`). -/
def main_unblock (asn : Option Nat) (dry_run : Bool) : List Event :=
  match asn with
  | none => []
  | some a => if a = 0 then [] else cleanup_ipsets a

end IptablesAsnBlock

/-! ## Spec-side definitions and concrete witness states -/

/-- Dataset downloads appearing in a trace (in order). -/
def fetchTrace (t : List Event) : List String :=
  t.filterMap (fun e => match e with
    | .fetch u => some u
    | _ => none)

/-- Number of firewall backends whose services report active: `firewalld`,
`ufw`, and the `iptables` backend (either of its two services). -/
def backendActiveCount (s : AsnBlock.SystemState) : Nat :=
  (if s.firewalldActive then 1 else 0) + (if s.ufwActive then 1 else 0) +
    (if s.iptablesActive || s.ip6tablesActive then 1 else 0)

/-- A non-comment, non-blank line with fewer than three tab-separated
fields: exactly the lines on which `asn_block.py`'s `parse_dataset` raises
`IndexError`. -/
def malformed_line (line : String) : Bool :=
  !(py_startswith line "#" || py_strip line = "") &&
    decide ((py_split (py_strip line) '\t').length < 3)

/-- Spec-side description of the pair a well-formed line contributes for
the target ASN (`none` for skipped, comment, blank or non-matching lines). -/
def yields_pair (asn : Nat) (line : String) : Option (String × String) :=
  if py_startswith line "#" || py_strip line = "" then none
  else
    match py_split (py_strip line) '\t' with
    | p0 :: p1 :: p2 :: _ => if p2 = toString asn then some (p0, p1) else none
    | _ => none

/-- A non-comment, non-blank line with a number of tab-separated fields
other than three: exactly the lines on which `iptables_asn_block.py`'s
three-way tuple unpacking raises `ValueError`. -/
def malformed_line_strict (line : String) : Bool :=
  !(py_startswith line "#" || py_strip line = "") &&
    decide ((py_split (py_strip line) '\t').length ≠ 3)

/-- Spec-side yielded pair for `iptables_asn_block.py` (exactly three
fields). -/
def yields_pair_strict (asn : Nat) (line : String) : Option (String × String) :=
  if py_startswith line "#" || py_strip line = "" then none
  else
    match py_split (py_strip line) '\t' with
    | [p0, p1, p2] => if p2 = toString asn then some (p0, p1) else none
    | _ => none

/-- A concrete quiescent state: no firewall service active, no ipset
present, both dataset caches missing, empty remote datasets. -/
def emptyMissingState : AsnBlock.SystemState :=
  { firewalldActive := false, ufwActive := false, iptablesActive := false,
    ip6tablesActive := false, ipsetListOk := fun _ => false,
    datasetV4 := none, datasetV6 := none,
    remoteV4 := [], remoteV6 := [] }

/-- A concrete state with both firewalld and ufw reported active. -/
def conflictState : AsnBlock.SystemState :=
  { firewalldActive := true, ufwActive := true, iptablesActive := false,
    ip6tablesActive := false, ipsetListOk := fun _ => false,
    datasetV4 := some [], datasetV6 := some [],
    remoteV4 := [], remoteV6 := [] }

/-- A concrete state with no active service and both dataset caches
present and empty. -/
def idleState : AsnBlock.SystemState :=
  { firewalldActive := false, ufwActive := false, iptablesActive := false,
    ip6tablesActive := false, ipsetListOk := fun _ => false,
    datasetV4 := some [], datasetV6 := some [],
    remoteV4 := [], remoteV6 := [] }

/-- A trace-producing helper indexed by the dry-run flag is dry-run
faithful when its dry trace prints exactly the mutating commands its live
trace runs, its dry trace mutates nothing, and its live trace prints no
dry-run description. -/
def DryFaithful (f : Bool → List Event) : Prop :=
  wouldTrace (f true) = mutTrace (f false) ∧
    mutTrace (f true) = [] ∧ wouldTrace (f false) = []

/-! ## Correctness of the CIDR summarization -/

theorem one_shiftLeft_eq (n : Nat) : 1 <<< n = 2 ^ n := by
  rw [Nat.shiftLeft_eq, Nat.one_mul]

theorem count_righthand_zero_bits_le_bits (n bits : Nat) :
    count_righthand_zero_bits n bits ≤ bits := by
  unfold count_righthand_zero_bits
  split
  · exact Nat.le_refl _
  · exact Nat.min_le_left _ _

theorem summarize_nbits_le_bits (bits first last : Nat) :
    summarize_nbits bits first last ≤ bits := by
  have h := count_righthand_zero_bits_le_bits first bits
  unfold summarize_nbits
  omega

theorem two_pow_summarize_nbits_le (bits first last : Nat) (h : first ≤ last) :
    2 ^ summarize_nbits bits first last ≤ last - first + 1 := by
  have hm : 0 < last - first + 1 := by omega
  have hs : 0 < Nat.size (last - first + 1) := Nat.size_pos.mpr hm
  have h1 : 2 ^ (Nat.size (last - first + 1) - 1) ≤ last - first + 1 :=
    Nat.lt_size.mp (by omega)
  have h2 : summarize_nbits bits first last ≤ Nat.size (last - first + 1) - 1 := by
    unfold summarize_nbits bit_length
    exact Nat.min_le_right _ _
  exact Nat.le_trans (Nat.pow_le_pow_right (by omega) h2) h1

theorem summarize_eq_nil (bits first last : Nat) (h : last < first) :
    summarize_address_range bits first last = [] := by
  unfold summarize_address_range
  rw [if_neg (by omega)]

theorem summarize_step (bits first last : Nat) (h : first ≤ last) :
    summarize_address_range bits first last =
      if first + 2 ^ summarize_nbits bits first last - 1 = 2 ^ bits - 1 then
        [⟨first, bits - summarize_nbits bits first last⟩]
      else
        ⟨first, bits - summarize_nbits bits first last⟩ ::
          summarize_address_range bits (first + 2 ^ summarize_nbits bits first last) last := by
  conv_lhs => rw [summarize_address_range]
  rw [if_pos h, one_shiftLeft_eq]

theorem blockSize_mk (bits x k : Nat) (h : k ≤ bits) :
    blockSize bits ⟨x, bits - k⟩ = 2 ^ k := by
  unfold blockSize
  rw [Nat.sub_sub_self h]

/-- The summarization loop produces an exact consecutive cover of
`[first, last]` whenever the interval lies inside the address space. -/
theorem summarize_covers (bits first last : Nat) (hlast : last < 2 ^ bits)
    (hf : first ≤ last + 1) :
    coversExactly bits (summarize_address_range bits first last) first last := by
  by_cases h : first ≤ last
  · rw [summarize_step bits first last h]
    have hk : summarize_nbits bits first last ≤ bits := summarize_nbits_le_bits bits first last
    have hsz : 2 ^ summarize_nbits bits first last ≤ last - first + 1 :=
      two_pow_summarize_nbits_le bits first last h
    have hbs : blockSize bits ⟨first, bits - summarize_nbits bits first last⟩ =
        2 ^ summarize_nbits bits first last := blockSize_mk bits first _ hk
    have hpos : 0 < 2 ^ summarize_nbits bits first last := Nat.two_pow_pos _
    have hpb : 0 < 2 ^ bits := Nat.two_pow_pos bits
    by_cases hbr : first + 2 ^ summarize_nbits bits first last - 1 = 2 ^ bits - 1
    · rw [if_pos hbr]
      refine ⟨rfl, ?_, ?_⟩
      · rw [hbs]; omega
      · show coversExactly bits [] _ _
        unfold coversExactly
        rw [hbs]; omega
    · rw [if_neg hbr]
      refine ⟨rfl, by rw [hbs]; omega, ?_⟩
      rw [hbs]
      exact summarize_covers bits (first + 2 ^ summarize_nbits bits first last) last hlast
        (by omega)
  · rw [summarize_eq_nil bits first last (by omega)]
    unfold coversExactly
    omega
termination_by last + 1 - first
decreasing_by
  have : 0 < 2 ^ summarize_nbits bits first last := Nat.two_pow_pos _
  omega

theorem coversExactly_network_bounds {bits : Nat} :
    ∀ {l : List CidrBlock} {lo hi : Nat}, coversExactly bits l lo hi →
      ∀ b ∈ l, lo ≤ b.network ∧ b.network + blockSize bits b ≤ hi + 1 := by
  intro l
  induction l with
  | nil => intro lo hi _ b hb; simp at hb
  | cons x xs ih =>
    intro lo hi hc b hb
    obtain ⟨hx, hbound, hrest⟩ := hc
    rcases List.mem_cons.mp hb with rfl | hb
    · omega
    · have := ih hrest b hb
      have hpos : 0 < blockSize bits x := Nat.two_pow_pos _
      omega

theorem coversExactly_mem_iff {bits : Nat} :
    ∀ {l : List CidrBlock} {lo hi : Nat}, coversExactly bits l lo hi →
      ∀ a : Nat,
        (∃ b ∈ l, b.network ≤ a ∧ a < b.network + blockSize bits b) ↔
          (lo ≤ a ∧ a ≤ hi) := by
  intro l
  induction l with
  | nil =>
    intro lo hi hc a
    unfold coversExactly at hc
    simp only [List.not_mem_nil, false_and, exists_false, false_iff]
    omega
  | cons x xs ih =>
    intro lo hi hc a
    obtain ⟨hx, hbound, hrest⟩ := hc
    have hxs := ih hrest a
    have hpos : 0 < blockSize bits x := Nat.two_pow_pos _
    constructor
    · rintro ⟨b, hb, hab⟩
      rcases List.mem_cons.mp hb with rfl | hb
      · omega
      · have := (coversExactly_network_bounds hrest b hb)
        omega
    · intro hrange
      by_cases hcase : a < lo + blockSize bits x
      · exact ⟨x, List.mem_cons_self x xs, by omega⟩
      · obtain ⟨b, hb, hab⟩ := hxs.mpr (by omega)
        exact ⟨b, List.mem_cons_of_mem x hb, hab⟩

theorem coversExactly_pairwise {bits : Nat} :
    ∀ {l : List CidrBlock} {lo hi : Nat}, coversExactly bits l lo hi →
      l.Pairwise (fun b1 b2 => b1.network + blockSize bits b1 ≤ b2.network) := by
  intro l
  induction l with
  | nil => intro lo hi _; exact List.Pairwise.nil
  | cons x xs ih =>
    intro lo hi hc
    obtain ⟨hx, hbound, hrest⟩ := hc
    refine List.Pairwise.cons ?_ (ih hrest)
    intro b hb
    have := (coversExactly_network_bounds hrest b hb).1
    omega

theorem testBit_eq_false_of_two_pow_dvd {j n : Nat} (hd : 2 ^ j ∣ n) {i : Nat}
    (hi : i < j) : n.testBit i = false := by
  obtain ⟨q, rfl⟩ := hd
  rw [Nat.testBit_mul_pow_two]
  simp [Nat.not_le_of_lt hi, show ¬ i ≥ j from by omega]

theorem land_mod_two_pow_eq_zero {j a n : Nat} (hd : 2 ^ j ∣ n) :
    (a &&& n) % 2 ^ j = 0 := by
  apply Nat.eq_of_testBit_eq
  intro i
  rw [Nat.testBit_mod_two_pow, Nat.testBit_land, Nat.zero_testBit]
  by_cases hij : i < j
  · rw [testBit_eq_false_of_two_pow_dvd hd hij]
    simp
  · simp [hij]

/-- Key alignment fact about `count_righthand_zero_bits`: if `2 ^ j`
divides a positive `n` and `j` fits in the address width, the counted
number of righthand zero bits is at least `j`. -/
theorem count_righthand_zero_bits_ge {n j bits : Nat} (hn : 0 < n) (hj : j ≤ bits)
    (hd : 2 ^ j ∣ n) : j ≤ count_righthand_zero_bits n bits := by
  unfold count_righthand_zero_bits
  rw [if_neg (by omega)]
  refine le_min hj ?_
  rcases Nat.eq_zero_or_pos j with hj0 | hjpos
  · omega
  have h2j : 0 < 2 ^ j := Nat.two_pow_pos j
  have hge : 2 ^ j ≤ n := Nat.le_of_dvd hn hd
  have hand : ((n - 1) &&& n) ≤ n - 1 := Nat.and_le_left
  have hmod0 : ((n - 1) &&& n) % 2 ^ j = 0 := land_mod_two_pow_eq_zero hd
  obtain ⟨t, ht⟩ := Nat.dvd_iff_mod_eq_zero.mpr hmod0
  have hm : ((n - 1) - ((n - 1) &&& n)) % 2 ^ j = (n - 1) % 2 ^ j := by
    rw [ht]
    exact Nat.sub_mul_mod (by omega)
  have ha : (n - 1) % 2 ^ j = 2 ^ j - 1 := by
    obtain ⟨q, hq⟩ := hd
    rcases q with _ | q
    · omega
    · have hmul : 2 ^ j * (q + 1) = 2 ^ j * q + 2 ^ j := by ring
      have hrepr : n - 1 = 2 ^ j * q + (2 ^ j - 1) := by omega
      rw [hrepr, Nat.mul_add_mod]
      exact Nat.mod_eq_of_lt (by omega)
  have hmge : 2 ^ j - 1 ≤ (n - 1) - ((n - 1) &&& n) := by
    have hle := Nat.mod_le ((n - 1) - ((n - 1) &&& n)) (2 ^ j)
    omega
  have hhalf : 2 ^ j = 2 ^ (j - 1) * 2 := by
    conv_lhs => rw [show j = (j - 1) + 1 by omega]
    rw [Nat.pow_succ]
  have hlow : 2 ^ (j - 1) ≤ (n - 1) - ((n - 1) &&& n) := by
    have := Nat.two_pow_pos (j - 1)
    omega
  have := Nat.lt_size.mpr hlow
  unfold bit_length
  omega

/-- Minimality of the summarization: no two adjacent output blocks are the
two halves of a common parent block, so the output cannot be merged. -/
theorem summarize_chain_no_halves (bits first last : Nat) (hlast : last < 2 ^ bits) :
    List.Chain' (fun b1 b2 => ¬ halvesOfParent bits b1 b2)
      (summarize_address_range bits first last) := by
  by_cases h : first ≤ last
  · rw [summarize_step bits first last h]
    have hk : summarize_nbits bits first last ≤ bits := summarize_nbits_le_bits bits first last
    have hpos : 0 < 2 ^ summarize_nbits bits first last := Nat.two_pow_pos _
    by_cases hbr : first + 2 ^ summarize_nbits bits first last - 1 = 2 ^ bits - 1
    · rw [if_pos hbr]
      exact List.chain'_singleton _
    · rw [if_neg hbr]
      rw [List.chain'_cons']
      refine ⟨?_, summarize_chain_no_halves bits (first + 2 ^ summarize_nbits bits first last)
        last hlast⟩
      intro y hy hhalves
      by_cases hnext : first + 2 ^ summarize_nbits bits first last ≤ last
      · rw [summarize_step bits _ last hnext] at hy
        set next := first + 2 ^ summarize_nbits bits first last with hnextdef
        set k2 := summarize_nbits bits next last with hk2def
        have hk2 : k2 ≤ bits := summarize_nbits_le_bits bits next last
        have hy' : (⟨next, bits - k2⟩ : CidrBlock) = y := by
          rcases Classical.em
              (next + 2 ^ k2 - 1 = 2 ^ bits - 1) with hc | hc
          · rw [if_pos hc] at hy; simpa using hy
          · rw [if_neg hc] at hy; simpa using hy
        subst hy'
        obtain ⟨hp1, hpe, hdvd, _⟩ := hhalves
        set k := summarize_nbits bits first last with hkdef
        have hpe' : bits - k = bits - k2 := hpe
        have hp1' : 1 ≤ bits - k := hp1
        have hdvd0 : 2 ^ (bits - (bits - k) + 1) ∣ first := hdvd
        have hkbits : k + 1 ≤ bits := by omega
        have hsub : bits - (bits - k) = k := Nat.sub_sub_self hk
        rw [hsub] at hdvd0
        have hkk2 : k = k2 := by omega
        have hcrz : k < count_righthand_zero_bits first bits := by
          rcases Nat.eq_zero_or_pos first with hf0 | hfpos
          · rw [hf0]
            unfold count_righthand_zero_bits
            rw [if_pos rfl]
            omega
          · have := count_righthand_zero_bits_ge hfpos hkbits hdvd0
            omega
        have hsb : bit_length (last - first + 1) - 1 = k := by
          have hmin : k = min (count_righthand_zero_bits first bits)
              (bit_length (last - first + 1) - 1) := by
            rw [hkdef]; rfl
          omega
        have hm1 : last - first + 1 < 2 ^ (k + 1) := by
          have hmpos : 0 < last - first + 1 := by omega
          have hspos : 0 < Nat.size (last - first + 1) := Nat.size_pos.mpr hmpos
          have hsize : Nat.size (last - first + 1) = k + 1 := by
            unfold bit_length at hsb
            omega
          exact Nat.size_le.mp (by omega)
        have hcov := summarize_covers bits next last hlast (by omega)
        rw [summarize_step bits next last hnext] at hcov
        have hbound : next + 2 ^ k2 ≤ last + 1 := by
          have hbs2 : blockSize bits ⟨next, bits - k2⟩ = 2 ^ k2 := blockSize_mk bits next _ hk2
          rcases Classical.em (next + 2 ^ k2 - 1 = 2 ^ bits - 1) with hc | hc
          · rw [if_pos hc] at hcov
            obtain ⟨_, hb, _⟩ := hcov
            rw [hbs2] at hb
            exact hb
          · rw [if_neg hc] at hcov
            obtain ⟨_, hb, _⟩ := hcov
            rw [hbs2] at hb
            exact hb
        have hsplit : 2 ^ (k + 1) = 2 ^ k * 2 := Nat.pow_succ 2 k
        rw [← hkk2] at hbound
        omega
      · rw [summarize_eq_nil bits _ last (by omega)] at hy
        simp at hy
  · rw [summarize_eq_nil bits first last (by omega)]
    exact List.chain'_nil
termination_by last + 1 - first
decreasing_by
  have : 0 < 2 ^ summarize_nbits bits first last := Nat.two_pow_pos _
  omega

/-! ## Claim theorems: CIDR summarization (C1, C2) -/

/-- C1: for every pair of addresses of one version with `start ≤ end`, the
ordered CIDR blocks produced by the summarizer used in `iprange_to_cidr`
cover exactly the integer-address interval `[start, end]` — every address
of the interval lies in some block, no address outside it does — and no
two blocks overlap. -/
theorem summarizer_cover_exact (v : IpVersion) (start last : Nat)
    (h1 : start ≤ last) (h2 : last < 2 ^ addrBits v) :
    (∀ a : Nat,
      (∃ b ∈ summarize_address_range (addrBits v) start last,
          b.network ≤ a ∧ a < b.network + blockSize (addrBits v) b) ↔
        (start ≤ a ∧ a ≤ last)) ∧
    (summarize_address_range (addrBits v) start last).Pairwise
      (fun b1 b2 => ∀ a : Nat,
        ¬((b1.network ≤ a ∧ a < b1.network + blockSize (addrBits v) b1) ∧
          (b2.network ≤ a ∧ a < b2.network + blockSize (addrBits v) b2))) := by
  have hc := summarize_covers (addrBits v) start last h2 (by omega)
  refine ⟨coversExactly_mem_iff hc, ?_⟩
  refine (coversExactly_pairwise hc).imp ?_
  intro b1 b2 h a
  omega

/-- Witness for C1 at the spec's example range 1.2.3.4 - 1.2.3.9. -/
theorem summarizer_cover_exact_witness :
    (∀ a : Nat,
      (∃ b ∈ summarize_address_range (addrBits IpVersion.v4) 16909060 16909065,
          b.network ≤ a ∧ a < b.network + blockSize (addrBits IpVersion.v4) b) ↔
        (16909060 ≤ a ∧ a ≤ 16909065)) ∧
    (summarize_address_range (addrBits IpVersion.v4) 16909060 16909065).Pairwise
      (fun b1 b2 => ∀ a : Nat,
        ¬((b1.network ≤ a ∧ a < b1.network + blockSize (addrBits IpVersion.v4) b1) ∧
          (b2.network ≤ a ∧ a < b2.network + blockSize (addrBits IpVersion.v4) b2))) :=
  summarizer_cover_exact IpVersion.v4 16909060 16909065 (by decide) (by decide)

/-- C2: the summarizer's output is minimal: no two adjacent blocks in the
output are the two halves of a common parent block of twice the size, so
the output cannot be merged into fewer valid CIDR blocks. -/
theorem summarizer_minimal (v : IpVersion) (start last : Nat)
    (h1 : start ≤ last) (h2 : last < 2 ^ addrBits v) :
    List.Chain' (fun b1 b2 => ¬ halvesOfParent (addrBits v) b1 b2)
      (summarize_address_range (addrBits v) start last) :=
  summarize_chain_no_halves (addrBits v) start last h2

/-- Witness for C2 at the spec's example range 192.0.2.0 - 192.0.2.130. -/
theorem summarizer_minimal_witness :
    List.Chain' (fun b1 b2 => ¬ halvesOfParent (addrBits IpVersion.v4) b1 b2)
      (summarize_address_range (addrBits IpVersion.v4) 3221225984 3221226114) :=
  summarizer_minimal IpVersion.v4 3221225984 3221226114 (by decide) (by decide)

/-! ## Claim theorems: ASN validation (C5) -/

/-- C5 counterexample: the address `2^32 - 1 = 4294967295` lies in the
claimed valid range `1..2^32-1`, but `validate_asn` rejects it, because
`0 < asn < 4294967295` excludes the upper endpoint. -/
theorem validate_asn_rejects_max :
    (1 ≤ 4294967295 ∧ (4294967295 : Nat) ≤ 2 ^ 32 - 1) ∧
    AsnBlock.validate_asn 4294967295 = false ∧
    IptablesAsnBlock.validate_asn 4294967295 = false := by
  decide

/-- C5 amended: an ASN is accepted as valid exactly when it lies in
`1..2^32-2` (the code checks `0 < asn < 4294967295`); for every ASN
outside that range, block and unblock in both scripts return immediately
after the logged error, before any backend detection, dataset access or
external command, with an empty trace. -/
theorem validate_asn_range_and_abort (asn : Nat) :
    (AsnBlock.validate_asn asn = true ↔ 1 ≤ asn ∧ asn ≤ 2 ^ 32 - 2) ∧
    IptablesAsnBlock.validate_asn asn = AsnBlock.validate_asn asn ∧
    (AsnBlock.validate_asn asn = false →
      ∀ (s : AsnBlock.SystemState) (dry : Bool),
        AsnBlock.create_ipset_and_rules s asn dry = ([], some ()) ∧
        AsnBlock.cleanup_ipsets s asn dry = ([], some ()) ∧
        IptablesAsnBlock.cleanup_ipsets asn = []) := by
  refine ⟨?_, rfl, ?_⟩
  · unfold AsnBlock.validate_asn
    simp only [Bool.and_eq_true, decide_eq_true_eq]
    omega
  · intro hv s dry
    have hv2 : IptablesAsnBlock.validate_asn asn = false := hv
    refine ⟨?_, ?_, ?_⟩
    · unfold AsnBlock.create_ipset_and_rules
      rw [if_pos (by simp [hv])]
    · unfold AsnBlock.cleanup_ipsets
      rw [if_pos (by simp [hv])]
    · unfold IptablesAsnBlock.cleanup_ipsets
      rw [if_pos (by simp [hv2])]

/-- Witness for the amended C5 at the rejected ASN 0 and at the accepted
ASN 64500. -/
theorem validate_asn_range_and_abort_witness :
    (AsnBlock.validate_asn 64500 = true ↔ 1 ≤ 64500 ∧ 64500 ≤ 2 ^ 32 - 2) ∧
    (AsnBlock.validate_asn 0 = false →
      ∀ (s : AsnBlock.SystemState) (dry : Bool),
        AsnBlock.create_ipset_and_rules s 0 dry = ([], some ()) ∧
        AsnBlock.cleanup_ipsets s 0 dry = ([], some ()) ∧
        IptablesAsnBlock.cleanup_ipsets 0 = []) ∧
    AsnBlock.cleanup_ipsets idleState 0 false = ([], some ()) :=
  ⟨(validate_asn_range_and_abort 64500).1,
   (validate_asn_range_and_abort 0).2.2,
   ((validate_asn_range_and_abort 0).2.2 (by decide) idleState false).2.1⟩

/-! ## Claim theorems: dataset parsing (C6) -/

/-- C6 counterexample: `parse_dataset` does not skip every malformed line
silently: a non-comment, non-blank line with fewer than three
tab-separated fields raises `IndexError` in `asn_block.py`, and the
three-way tuple unpacking of `iptables_asn_block.py` also raises
`ValueError` on a four-field line. -/
theorem parse_dataset_raises_on_malformed :
    AsnBlock.parse_dataset ["since1992"] 64500 = none ∧
    IptablesAsnBlock.parse_dataset ["1.2.3.0\t1.2.3.255\t64500\tEXTRA"] 64500 = none := by
  decide

theorem parse_line_characterization (asn : Nat) (l : String) :
    AsnBlock.parse_line asn l =
      if malformed_line l = true then none else some (yields_pair asn l) := by
  unfold AsnBlock.parse_line malformed_line yields_pair
  by_cases h : (py_startswith l "#" || py_strip l = "") = true
  · simp [h]
  · simp only [h, if_neg, Bool.not_false, Bool.true_and]
    cases hm : py_split (py_strip l) '\t' with
    | nil => simp [h, hm]
    | cons p0 rest =>
      cases rest with
      | nil => simp [h, hm]
      | cons p1 rest2 =>
        cases rest2 with
        | nil => simp [h, hm]
        | cons p2 rest3 =>
          simp only [h, hm, Bool.false_or, Bool.not_false, Bool.true_and]
          rw [if_neg (by simp)]
          by_cases hp : p2 = toString asn <;> simp [hp]

theorem parse_line_strict_characterization (asn : Nat) (l : String) :
    IptablesAsnBlock.parse_line asn l =
      if malformed_line_strict l = true then none
      else some (yields_pair_strict asn l) := by
  unfold IptablesAsnBlock.parse_line malformed_line_strict yields_pair_strict
  by_cases h : (py_startswith l "#" || py_strip l = "") = true
  · simp [h]
  · simp only [h, if_neg, Bool.not_false, Bool.true_and]
    cases hm : py_split (py_strip l) '\t' with
    | nil => simp [h, hm]
    | cons p0 rest =>
      cases rest with
      | nil => simp [h, hm]
      | cons p1 rest2 =>
        cases rest2 with
        | nil => simp [h, hm]
        | cons p2 rest3 =>
          cases rest3 with
          | nil =>
            simp only [h, hm]
            rw [if_neg (by simp)]
            by_cases hp : p2 = toString asn <;> simp [hp]
          | cons p3 rest4 => simp [h, hm]

/-- C6 amended: comment lines, blank lines and well-formed non-matching
lines are skipped silently, and the parser yields exactly the pairs of the
well-formed lines whose ASN field equals the target; however, a
non-comment, non-blank line with fewer than three tab-separated fields
(other than exactly three for `iptables_asn_block.py`) makes the parser
raise instead of skipping: it fails exactly when such a line is present. -/
theorem parse_dataset_wellformed_behaviour (lines : List String) (asn : Nat) :
    (AsnBlock.parse_dataset lines asn = none ↔
      ∃ l ∈ lines, malformed_line l = true) ∧
    ((∀ l ∈ lines, malformed_line l = false) →
      AsnBlock.parse_dataset lines asn = some (lines.filterMap (yields_pair asn))) ∧
    (IptablesAsnBlock.parse_dataset lines asn = none ↔
      ∃ l ∈ lines, malformed_line_strict l = true) ∧
    ((∀ l ∈ lines, malformed_line_strict l = false) →
      IptablesAsnBlock.parse_dataset lines asn =
        some (lines.filterMap (yields_pair_strict asn))) := by
  induction lines with
  | nil => simp [AsnBlock.parse_dataset, IptablesAsnBlock.parse_dataset]
  | cons l ls ih =>
    obtain ⟨ih1, ih2, ih3, ih4⟩ := ih
    refine ⟨?_, ?_, ?_, ?_⟩
    · unfold AsnBlock.parse_dataset
      rw [parse_line_characterization]
      by_cases hm : malformed_line l = true
      · simp [hm]
      · rw [if_neg (by simpa using hm)]
        cases hy : yields_pair asn l with
        | none =>
          simp only []
          rw [ih1]
          constructor
          · rintro ⟨l2, hl2, hml2⟩
            exact ⟨l2, List.mem_cons_of_mem _ hl2, hml2⟩
          · rintro ⟨l2, hl2, hml2⟩
            rcases List.mem_cons.mp hl2 with rfl | hl2
            · exact absurd hml2 hm
            · exact ⟨l2, hl2, hml2⟩
        | some p =>
          simp only []
          cases hrec : AsnBlock.parse_dataset ls asn with
          | none =>
            simp only [true_iff]
            rcases ih1.mp hrec with ⟨l2, hl2, hml2⟩
            exact ⟨l2, List.mem_cons_of_mem _ hl2, hml2⟩
          | some rest =>
            simp only [reduceCtorEq, false_iff, not_exists]
            rintro l2 ⟨hl2, hml2⟩
            rcases List.mem_cons.mp hl2 with rfl | hl2
            · exact absurd hml2 hm
            · rw [ih1.mpr ⟨l2, hl2, hml2⟩] at hrec
              exact absurd hrec (by simp)
    · intro hall
      have hl : malformed_line l = false := hall l (List.mem_cons_self _ _)
      unfold AsnBlock.parse_dataset
      rw [parse_line_characterization, hl, List.filterMap_cons]
      have hrec := ih2 (fun l2 hl2 => hall l2 (List.mem_cons_of_mem _ hl2))
      simp only [Bool.false_eq_true, if_neg]
      cases hy : yields_pair asn l with
      | none => simpa [hy] using hrec
      | some p => simp [hy, hrec]
    · unfold IptablesAsnBlock.parse_dataset
      rw [parse_line_strict_characterization]
      by_cases hm : malformed_line_strict l = true
      · simp [hm]
      · rw [if_neg (by simpa using hm)]
        cases hy : yields_pair_strict asn l with
        | none =>
          simp only []
          rw [ih3]
          constructor
          · rintro ⟨l2, hl2, hml2⟩
            exact ⟨l2, List.mem_cons_of_mem _ hl2, hml2⟩
          · rintro ⟨l2, hl2, hml2⟩
            rcases List.mem_cons.mp hl2 with rfl | hl2
            · exact absurd hml2 hm
            · exact ⟨l2, hl2, hml2⟩
        | some p =>
          simp only []
          cases hrec : IptablesAsnBlock.parse_dataset ls asn with
          | none =>
            simp only [true_iff]
            rcases ih3.mp hrec with ⟨l2, hl2, hml2⟩
            exact ⟨l2, List.mem_cons_of_mem _ hl2, hml2⟩
          | some rest =>
            simp only [reduceCtorEq, false_iff, not_exists]
            rintro l2 ⟨hl2, hml2⟩
            rcases List.mem_cons.mp hl2 with rfl | hl2
            · exact absurd hml2 hm
            · rw [ih3.mpr ⟨l2, hl2, hml2⟩] at hrec
              exact absurd hrec (by simp)
    · intro hall
      have hl : malformed_line_strict l = false := hall l (List.mem_cons_self _ _)
      unfold IptablesAsnBlock.parse_dataset
      rw [parse_line_strict_characterization, hl, List.filterMap_cons]
      have hrec := ih4 (fun l2 hl2 => hall l2 (List.mem_cons_of_mem _ hl2))
      simp only [Bool.false_eq_true, if_neg]
      cases hy : yields_pair_strict asn l with
      | none => simpa [hy] using hrec
      | some p => simp [hy, hrec]

/-- Witness for the amended C6 on a small concrete dataset with a comment
line, a blank line, a matching line and a non-matching line. -/
theorem parse_dataset_wellformed_behaviour_witness :
    (∀ l ∈ ["# c", "", "1.2.3.0\t1.2.3.255\t64500", "9.9.9.0\t9.9.9.9\t100"],
      malformed_line l = false) ∧
    AsnBlock.parse_dataset
        ["# c", "", "1.2.3.0\t1.2.3.255\t64500", "9.9.9.0\t9.9.9.9\t64500"] 64500 =
      some [("1.2.3.0", "1.2.3.255"), ("9.9.9.0", "9.9.9.9")] :=
  ⟨by decide,
   by
    rw [(parse_dataset_wellformed_behaviour
      ["# c", "", "1.2.3.0\t1.2.3.255\t64500", "9.9.9.0\t9.9.9.9\t64500"] 64500).2.1
      (by decide)]
    decide⟩

/-! ## Claim theorems: iptables check-before-insert (C8) -/

/-- C8 counterexample: in `asn_block.py` the iptables apply path is not
guarded: `apply_iptables_rule` issues a bare `iptables -I INPUT` with no
`-C` existence check, so applying twice for the same ASN and IP version
leaves two identical rules in the chain, not one. -/
theorem apply_iptables_rule_duplicates :
    List.count (set_match_rule "ASN64500_v4")
      (AsnBlock.apply_rule_unguarded
        (AsnBlock.apply_rule_unguarded [] "ASN64500_v4") "ASN64500_v4") = 2 ∧
    AsnBlock.apply_iptables_rule BIN_IPTABLES "ASN64500_v4" false =
      [Event.run ([BIN_IPTABLES, "-I", "INPUT"] ++ set_match_rule "ASN64500_v4")] := by
  exact ⟨by decide, rfl⟩

/-- C8 amended: in `iptables_asn_block.py` the insertion is guarded by an
explicit `iptables -C` check-before-insert, so applying twice for the same
ASN and IP version leaves exactly one filter-chain rule referencing the
named set; in `asn_block.py`, `apply_iptables_rule` inserts
unconditionally and double apply duplicates the rule. -/
theorem check_before_insert_idempotent (chain : List (List String))
    (ipset_name : String)
    (h : List.count (set_match_rule ipset_name) chain = 0) :
    List.count (set_match_rule ipset_name)
      (IptablesAsnBlock.apply_rule_guarded
        (IptablesAsnBlock.apply_rule_guarded chain ipset_name) ipset_name) = 1 ∧
    List.count (set_match_rule ipset_name)
      (AsnBlock.apply_rule_unguarded
        (AsnBlock.apply_rule_unguarded chain ipset_name) ipset_name) = 2 := by
  have hnm : set_match_rule ipset_name ∉ chain := List.count_eq_zero.mp h
  constructor
  · unfold IptablesAsnBlock.apply_rule_guarded insert_rule
    rw [if_neg hnm, if_pos (List.mem_cons_self _ _), List.count_cons_self, h]
  · unfold AsnBlock.apply_rule_unguarded insert_rule
    rw [List.count_cons_self, List.count_cons_self, h]

/-- Witness for the amended C8 on the empty chain. -/
theorem check_before_insert_idempotent_witness :
    List.count (set_match_rule "ASN64500_v6")
      (IptablesAsnBlock.apply_rule_guarded
        (IptablesAsnBlock.apply_rule_guarded [] "ASN64500_v6") "ASN64500_v6") = 1 ∧
    List.count (set_match_rule "ASN64500_v6")
      (AsnBlock.apply_rule_unguarded
        (AsnBlock.apply_rule_unguarded [] "ASN64500_v6") "ASN64500_v6") = 2 :=
  check_before_insert_idempotent [] "ASN64500_v6" (by decide)

/-! ## Claim theorems: ufw symmetry (C9) -/

/-- The `cidr_list` accumulated by the population loop at block time
equals the list recomputed by the cleanup loop, for any dataset, ASN, set
name and dry-run flag (the two loops differ only in the `ipset add`
commands the first one also issues). -/
theorem populate_loop_cidrs_eq_cleanup (asn : Nat) (n : String) (dry : Bool) :
    ∀ lines : List String,
      (AsnBlock.populate_loop asn n dry lines).2 =
        AsnBlock.cleanup_cidr_loop asn lines := by
  intro lines
  induction lines with
  | nil => rfl
  | cons l ls ih =>
    unfold AsnBlock.populate_loop AsnBlock.cleanup_cidr_loop
    cases hp : AsnBlock.parse_line asn l with
    | none => rfl
    | some r =>
      cases r with
      | none => exact ih
      | some p =>
        obtain ⟨st, en⟩ := p
        simp only []
        cases hc : iprange_cidr_strings st en with
        | none => rfl
        | some cidrs =>
          simp only []
          cases hpl : AsnBlock.populate_loop asn n dry ls with
          | mk evs2 r =>
            rw [hpl] at ih
            rw [← ih]
            cases r with
            | none => rfl
            | some rest => rfl

/-- C9: for a fixed dataset snapshot, ASN and IP version, the ordered
CIDR-string list recomputed at unblock time by `cleanup_ipsets` equals the
list computed at block time by `create_ipset_and_rules` (both feed the ufw
rule commands). -/
theorem ufw_cidr_list_symmetry (lines : List String) (asn : Nat)
    (ipset_name : String) (dry_run : Bool) :
    (AsnBlock.populate_loop asn ipset_name dry_run lines).2 =
      AsnBlock.cleanup_cidr_loop asn lines :=
  populate_loop_cidrs_eq_cleanup asn ipset_name dry_run lines

/-! ## Trace bookkeeping lemmas -/

theorem mutTrace_append (a b : List Event) :
    mutTrace (a ++ b) = mutTrace a ++ mutTrace b :=
  List.filterMap_append a b _

theorem wouldTrace_append (a b : List Event) :
    wouldTrace (a ++ b) = wouldTrace a ++ wouldTrace b :=
  List.filterMap_append a b _

theorem fetchTrace_append (a b : List Event) :
    fetchTrace (a ++ b) = fetchTrace a ++ fetchTrace b :=
  List.filterMap_append a b _

theorem mutTrace_cons_run (c : List String) (t : List Event) :
    mutTrace (Event.run c :: t) =
      if mutatingCmd c then c :: mutTrace t else mutTrace t := by
  by_cases h : mutatingCmd c <;> simp [mutTrace, List.filterMap_cons, h]

theorem mutTrace_cons_would (c : List String) (t : List Event) :
    mutTrace (Event.wouldRun c :: t) = mutTrace t := by
  simp [mutTrace, List.filterMap_cons]

theorem mutTrace_cons_fetch (u : String) (t : List Event) :
    mutTrace (Event.fetch u :: t) = mutTrace t := by
  simp [mutTrace, List.filterMap_cons]

theorem wouldTrace_cons_run (c : List String) (t : List Event) :
    wouldTrace (Event.run c :: t) = wouldTrace t := by
  simp [wouldTrace, List.filterMap_cons]

theorem wouldTrace_cons_would (c : List String) (t : List Event) :
    wouldTrace (Event.wouldRun c :: t) = c :: wouldTrace t := by
  simp [wouldTrace, List.filterMap_cons]

theorem wouldTrace_cons_fetch (u : String) (t : List Event) :
    wouldTrace (Event.fetch u :: t) = wouldTrace t := by
  simp [wouldTrace, List.filterMap_cons]

theorem fetchTrace_cons_run (c : List String) (t : List Event) :
    fetchTrace (Event.run c :: t) = fetchTrace t := by
  simp [fetchTrace, List.filterMap_cons]

theorem fetchTrace_cons_would (c : List String) (t : List Event) :
    fetchTrace (Event.wouldRun c :: t) = fetchTrace t := by
  simp [fetchTrace, List.filterMap_cons]

theorem fetchTrace_cons_fetch (u : String) (t : List Event) :
    fetchTrace (Event.fetch u :: t) = u :: fetchTrace t := by
  simp [fetchTrace, List.filterMap_cons]

theorem mutatingCmd_systemctl (rest : List String) :
    mutatingCmd (BIN_SYSTEMCTL :: rest) = false := by
  simp [mutatingCmd]

theorem mutatingCmd_ipset_list (n : String) :
    mutatingCmd [BIN_IPSET, "list", n] = false := by
  simp [mutatingCmd, BIN_IPSET, BIN_SYSTEMCTL]

theorem mutatingCmd_ipset_cons (a : String) (rest : List String) (h : a ≠ "list") :
    mutatingCmd (BIN_IPSET :: a :: rest) = true := by
  simp [mutatingCmd, BIN_IPSET, BIN_SYSTEMCTL, h]

theorem mutatingCmd_firewall_cmd (rest : List String) :
    mutatingCmd (BIN_FIREWALL_CMD :: rest) = true := by
  simp [mutatingCmd, BIN_FIREWALL_CMD, BIN_SYSTEMCTL, BIN_IPSET, BIN_IPTABLES, BIN_IP6TABLES]

theorem mutatingCmd_ufw (rest : List String) :
    mutatingCmd (BIN_UFW :: rest) = true := by
  simp [mutatingCmd, BIN_UFW, BIN_SYSTEMCTL, BIN_IPSET, BIN_IPTABLES, BIN_IP6TABLES]

theorem mutatingCmd_iptables_cons (cmd a : String) (rest : List String)
    (hcmd : cmd = BIN_IPTABLES ∨ cmd = BIN_IP6TABLES) (h : a ≠ "-C") :
    mutatingCmd (cmd :: a :: rest) = true := by
  rcases hcmd with rfl | rfl <;>
    simp [mutatingCmd, BIN_IPTABLES, BIN_IP6TABLES, BIN_SYSTEMCTL, BIN_IPSET, h]

theorem mutTrace_nil : mutTrace [] = [] := rfl

theorem wouldTrace_nil : wouldTrace [] = [] := rfl

theorem fetchTrace_nil : fetchTrace [] = [] := rfl

theorem create_or_reset_ipset_spec (s : AsnBlock.SystemState) (n v : String) :
    DryFaithful (AsnBlock.create_or_reset_ipset s n v) ∧
    mutTrace (AsnBlock.create_or_reset_ipset s n v false) =
      (if s.ipsetListOk n then [[BIN_IPSET, "destroy", n]] else []) ++
        [[BIN_IPSET, "create", n, "hash:net", "family",
          if v = "v6" then "inet6" else "inet"]] ∧
    (∀ d, fetchTrace (AsnBlock.create_or_reset_ipset s n v d) = []) := by
  unfold DryFaithful AsnBlock.create_or_reset_ipset
  by_cases h : s.ipsetListOk n <;>
    simp [h, mutTrace_append, wouldTrace_append, fetchTrace_append,
      mutTrace_cons_run, mutTrace_cons_would, wouldTrace_cons_run, wouldTrace_cons_would,
      fetchTrace_cons_run, fetchTrace_cons_would, mutTrace_nil, wouldTrace_nil,
      fetchTrace_nil, mutatingCmd_ipset_list, mutatingCmd_ipset_cons]

theorem add_ip_to_ipset_spec (n c : String) :
    DryFaithful (AsnBlock.add_ip_to_ipset n c) ∧
    mutTrace (AsnBlock.add_ip_to_ipset n c false) = [[BIN_IPSET, "add", n, c]] ∧
    (∀ d, fetchTrace (AsnBlock.add_ip_to_ipset n c d) = []) := by
  unfold DryFaithful AsnBlock.add_ip_to_ipset
  simp [mutTrace_cons_run, mutTrace_cons_would, wouldTrace_cons_run,
    wouldTrace_cons_would, fetchTrace_cons_run, fetchTrace_cons_would,
    mutTrace_nil, wouldTrace_nil, fetchTrace_nil, mutatingCmd_ipset_cons]

theorem apply_firewalld_rule_spec (n : String) :
    DryFaithful (AsnBlock.apply_firewalld_rule n) ∧
    (∀ d, fetchTrace (AsnBlock.apply_firewalld_rule n d) = []) := by
  unfold DryFaithful AsnBlock.apply_firewalld_rule
  simp [mutTrace_cons_run, mutTrace_cons_would, wouldTrace_cons_run,
    wouldTrace_cons_would, fetchTrace_cons_run, fetchTrace_cons_would,
    mutTrace_nil, wouldTrace_nil, fetchTrace_nil, mutatingCmd_firewall_cmd]

theorem remove_firewalld_rule_spec (n : String) :
    DryFaithful (AsnBlock.remove_firewalld_rule n) ∧
    (∀ d, fetchTrace (AsnBlock.remove_firewalld_rule n d) = []) := by
  unfold DryFaithful AsnBlock.remove_firewalld_rule
  simp [mutTrace_cons_run, mutTrace_cons_would, wouldTrace_cons_run,
    wouldTrace_cons_would, fetchTrace_cons_run, fetchTrace_cons_would,
    mutTrace_nil, wouldTrace_nil, fetchTrace_nil, mutatingCmd_firewall_cmd]

theorem apply_ufw_rule_spec (cidrs : List String) :
    DryFaithful (AsnBlock.apply_ufw_rule cidrs) ∧
    (∀ d, fetchTrace (AsnBlock.apply_ufw_rule cidrs d) = []) := by
  unfold DryFaithful
  induction cidrs with
  | nil => simp [AsnBlock.apply_ufw_rule, mutTrace_nil, wouldTrace_nil, fetchTrace_nil]
  | cons c cs ih =>
    obtain ⟨⟨ih1, ih2, ih3⟩, ih4⟩ := ih
    have hexp : ∀ d, AsnBlock.apply_ufw_rule (c :: cs) d =
        (if d then [Event.wouldRun [BIN_UFW, "deny", "from", c]]
         else [Event.run [BIN_UFW, "deny", "from", c]]) ++ AsnBlock.apply_ufw_rule cs d := by
      intro d
      simp [AsnBlock.apply_ufw_rule]
    refine ⟨⟨?_, ?_, ?_⟩, ?_⟩
    · rw [hexp, hexp]
      simp [mutTrace_append, wouldTrace_append, mutTrace_cons_run, wouldTrace_cons_would,
        mutTrace_nil, wouldTrace_nil, mutatingCmd_ufw, ih1]
    · rw [hexp]
      simp [mutTrace_append, mutTrace_cons_would, mutTrace_nil, ih2]
    · rw [hexp]
      simp [wouldTrace_append, wouldTrace_cons_run, wouldTrace_nil, ih3]
    · intro d
      rw [hexp]
      by_cases hd : d <;>
        simp [hd, fetchTrace_append, fetchTrace_cons_run, fetchTrace_cons_would,
          fetchTrace_nil, ih4]

theorem remove_ufw_rule_spec (cidrs : List String) :
    DryFaithful (AsnBlock.remove_ufw_rule cidrs) ∧
    (∀ d, fetchTrace (AsnBlock.remove_ufw_rule cidrs d) = []) := by
  unfold DryFaithful
  induction cidrs with
  | nil => simp [AsnBlock.remove_ufw_rule, mutTrace_nil, wouldTrace_nil, fetchTrace_nil]
  | cons c cs ih =>
    obtain ⟨⟨ih1, ih2, ih3⟩, ih4⟩ := ih
    have hexp : ∀ d, AsnBlock.remove_ufw_rule (c :: cs) d =
        (if d then [Event.wouldRun [BIN_UFW, "delete", "deny", "from", c]]
         else [Event.run [BIN_UFW, "delete", "deny", "from", c]]) ++
          AsnBlock.remove_ufw_rule cs d := by
      intro d
      simp [AsnBlock.remove_ufw_rule]
    refine ⟨⟨?_, ?_, ?_⟩, ?_⟩
    · rw [hexp, hexp]
      simp [mutTrace_append, wouldTrace_append, mutTrace_cons_run, wouldTrace_cons_would,
        mutTrace_nil, wouldTrace_nil, mutatingCmd_ufw, ih1]
    · rw [hexp]
      simp [mutTrace_append, mutTrace_cons_would, mutTrace_nil, ih2]
    · rw [hexp]
      simp [wouldTrace_append, wouldTrace_cons_run, wouldTrace_nil, ih3]
    · intro d
      rw [hexp]
      by_cases hd : d <;>
        simp [hd, fetchTrace_append, fetchTrace_cons_run, fetchTrace_cons_would,
          fetchTrace_nil, ih4]

theorem apply_iptables_rule_spec (cmd n : String)
    (hcmd : cmd = BIN_IPTABLES ∨ cmd = BIN_IP6TABLES) :
    DryFaithful (AsnBlock.apply_iptables_rule cmd n) ∧
    (∀ d, fetchTrace (AsnBlock.apply_iptables_rule cmd n d) = []) := by
  unfold DryFaithful AsnBlock.apply_iptables_rule
  simp [mutTrace_cons_run, mutTrace_cons_would, wouldTrace_cons_run,
    wouldTrace_cons_would, fetchTrace_cons_run, fetchTrace_cons_would,
    mutTrace_nil, wouldTrace_nil, fetchTrace_nil,
    mutatingCmd_iptables_cons cmd "-I" _ hcmd (by simp)]

theorem remove_iptables_rule_spec (cmd n : String)
    (hcmd : cmd = BIN_IPTABLES ∨ cmd = BIN_IP6TABLES) :
    DryFaithful (AsnBlock.remove_iptables_rule cmd n) ∧
    (∀ d, fetchTrace (AsnBlock.remove_iptables_rule cmd n d) = []) := by
  unfold DryFaithful AsnBlock.remove_iptables_rule
  simp [mutTrace_cons_run, mutTrace_cons_would, wouldTrace_cons_run,
    wouldTrace_cons_would, fetchTrace_cons_run, fetchTrace_cons_would,
    mutTrace_nil, wouldTrace_nil, fetchTrace_nil,
    mutatingCmd_iptables_cons cmd "-D" _ hcmd (by simp)]

theorem adds_flatten_spec (n : String) (cidrs : List String) :
    DryFaithful (fun d => (cidrs.map (fun c => AsnBlock.add_ip_to_ipset n c d)).flatten) ∧
    mutTrace ((cidrs.map (fun c => AsnBlock.add_ip_to_ipset n c false)).flatten) =
      cidrs.map (fun c => [BIN_IPSET, "add", n, c]) ∧
    (∀ d, fetchTrace ((cidrs.map (fun c => AsnBlock.add_ip_to_ipset n c d)).flatten) = []) := by
  unfold DryFaithful
  induction cidrs with
  | nil => simp [mutTrace_nil, wouldTrace_nil, fetchTrace_nil]
  | cons c cs ih =>
    obtain ⟨⟨ih1, ih2, ih3⟩, ih4, ih5⟩ := ih
    have hadd := add_ip_to_ipset_spec n c
    simp only [List.map_cons, List.flatten_cons]
    refine ⟨⟨?_, ?_, ?_⟩, ?_, ?_⟩ <;>
      simp [mutTrace_append, wouldTrace_append, fetchTrace_append, ih1, ih2, ih3, ih4, ih5,
        hadd.1.1, hadd.1.2.1, hadd.1.2.2, hadd.2.1, hadd.2.2]

theorem populate_loop_spec (asn : Nat) (n : String) :
    ∀ lines : List String,
      wouldTrace (AsnBlock.populate_loop asn n true lines).1 =
        mutTrace (AsnBlock.populate_loop asn n false lines).1 ∧
      mutTrace (AsnBlock.populate_loop asn n true lines).1 = [] ∧
      wouldTrace (AsnBlock.populate_loop asn n false lines).1 = [] ∧
      (∀ d, fetchTrace (AsnBlock.populate_loop asn n d lines).1 = []) ∧
      (∀ cl, (AsnBlock.populate_loop asn n false lines).2 = some cl →
        mutTrace (AsnBlock.populate_loop asn n false lines).1 =
          cl.map (fun c => [BIN_IPSET, "add", n, c])) := by
  intro lines
  induction lines with
  | nil =>
    refine ⟨rfl, rfl, rfl, fun d => rfl, ?_⟩
    intro cl hcl
    simp [AsnBlock.populate_loop] at hcl
    simp [← hcl, AsnBlock.populate_loop, mutTrace_nil]
  | cons l ls ih =>
    obtain ⟨ih1, ih2, ih3, ih4, ih5⟩ := ih
    unfold AsnBlock.populate_loop
    cases hp : AsnBlock.parse_line asn l with
    | none => exact ⟨rfl, rfl, rfl, fun d => rfl, fun cl hcl => by simp at hcl⟩
    | some r =>
      cases r with
      | none => exact ⟨ih1, ih2, ih3, ih4, ih5⟩
      | some p =>
        obtain ⟨st, en⟩ := p
        dsimp only
        cases hc : iprange_cidr_strings st en with
        | none => exact ⟨rfl, rfl, rfl, fun d => rfl, fun cl hcl => by simp at hcl⟩
        | some cidrs =>
          dsimp only
          have hres : (AsnBlock.populate_loop asn n true ls).2 =
              (AsnBlock.populate_loop asn n false ls).2 := by
            rw [populate_loop_cidrs_eq_cleanup, populate_loop_cidrs_eq_cleanup]
          have hadds := adds_flatten_spec n cidrs
          have ih4t := ih4 true
          have ih4f := ih4 false
          cases hdt : AsnBlock.populate_loop asn n true ls with
          | mk e1 r1 =>
            cases hdf : AsnBlock.populate_loop asn n false ls with
            | mk e2 r2 =>
              rw [hdt, hdf] at hres
              dsimp only at hres
              subst hres
              rw [hdt] at ih1 ih2 ih4t
              rw [hdf] at ih1 ih3 ih4f ih5
              dsimp only at ih1 ih2 ih3 ih4t ih4f ih5
              cases r1 with
              | none =>
                dsimp only
                refine ⟨?_, ?_, ?_, ?_, ?_⟩
                · rw [wouldTrace_append, mutTrace_append, ih1, hadds.1.1]
                · rw [mutTrace_append, ih2, hadds.1.2.1]
                  rfl
                · rw [wouldTrace_append, ih3, hadds.1.2.2]
                  rfl
                · intro d
                  cases d
                  · rw [hdf]
                    dsimp only
                    rw [fetchTrace_append, ih4f, hadds.2.2 false]
                    rfl
                  · rw [hdt]
                    dsimp only
                    rw [fetchTrace_append, ih4t, hadds.2.2 true]
                    rfl
                · intro cl hcl
                  simp at hcl
              | some rest =>
                dsimp only
                refine ⟨?_, ?_, ?_, ?_, ?_⟩
                · rw [wouldTrace_append, mutTrace_append, ih1, hadds.1.1]
                · rw [mutTrace_append, ih2, hadds.1.2.1]
                  rfl
                · rw [wouldTrace_append, ih3, hadds.1.2.2]
                  rfl
                · intro d
                  cases d
                  · rw [hdf]
                    dsimp only
                    rw [fetchTrace_append, ih4f, hadds.2.2 false]
                    rfl
                  · rw [hdt]
                    dsimp only
                    rw [fetchTrace_append, ih4t, hadds.2.2 true]
                    rfl
                · intro cl hcl
                  simp only [Option.some_inj] at hcl
                  rw [mutTrace_append, hadds.2.1, ih5 rest rfl, ← hcl, List.map_append]

theorem detect_firewall_backend_trace (s : AsnBlock.SystemState) :
    mutTrace (AsnBlock.detect_firewall_backend s).1 = [] ∧
    wouldTrace (AsnBlock.detect_firewall_backend s).1 = [] ∧
    fetchTrace (AsnBlock.detect_firewall_backend s).1 = [] := by
  unfold AsnBlock.detect_firewall_backend AsnBlock.is_service_active
  by_cases h : AsnBlock.serviceActive s "iptables" <;>
    simp [h, mutTrace_append, wouldTrace_append, fetchTrace_append, mutTrace_cons_run,
      wouldTrace_cons_run, fetchTrace_cons_run, mutTrace_nil, wouldTrace_nil,
      fetchTrace_nil, mutatingCmd_systemctl]

theorem ensure_datasets_spec (s : AsnBlock.SystemState) :
    mutTrace (AsnBlock.ensure_datasets s).1 = [] ∧
    wouldTrace (AsnBlock.ensure_datasets s).1 = [] ∧
    ((s.datasetV4.isNone || s.datasetV6.isNone) = true →
      fetchTrace (AsnBlock.ensure_datasets s).1 = [IPTOASN_V4_URL, IPTOASN_V6_URL] ∧
      (AsnBlock.ensure_datasets s).2.datasetV4 =
        some (s.remoteV4.filter AsnBlock.dataset_line_keep) ∧
      (AsnBlock.ensure_datasets s).2.datasetV6 =
        some (s.remoteV6.filter AsnBlock.dataset_line_keep)) ∧
    ((s.datasetV4.isNone || s.datasetV6.isNone) = false →
      AsnBlock.ensure_datasets s = ([], s)) := by
  unfold AsnBlock.ensure_datasets AsnBlock.update_datasets
  by_cases h : (s.datasetV4.isNone || s.datasetV6.isNone) <;>
    simp [h, mutTrace_cons_fetch, wouldTrace_cons_fetch, fetchTrace_cons_fetch,
      mutTrace_nil, wouldTrace_nil, fetchTrace_nil]

theorem block_version_spec (s : AsnBlock.SystemState) (asn : Nat) (fw v : String) :
    wouldTrace (AsnBlock.block_version s asn fw v true).1 =
      mutTrace (AsnBlock.block_version s asn fw v false).1 ∧
    mutTrace (AsnBlock.block_version s asn fw v true).1 = [] ∧
    wouldTrace (AsnBlock.block_version s asn fw v false).1 = [] ∧
    (∀ d, fetchTrace (AsnBlock.block_version s asn fw v d).1 = []) ∧
    (AsnBlock.block_version s asn fw v true).2 =
      (AsnBlock.block_version s asn fw v false).2 := by
  unfold AsnBlock.block_version
  have hcr := create_or_reset_ipset_spec s ("ASN" ++ toString asn ++ "_" ++ v) v
  cases hds : AsnBlock.dataset_file s v with
  | none =>
    dsimp only
    exact ⟨hcr.1.1, hcr.1.2.1, hcr.1.2.2, fun d => hcr.2.2 d, rfl⟩
  | some lines =>
    dsimp only
    have hps := populate_loop_spec asn ("ASN" ++ toString asn ++ "_" ++ v) lines
    obtain ⟨hp1, hp2, hp3, hp4, hp5⟩ := hps
    have hres : (AsnBlock.populate_loop asn ("ASN" ++ toString asn ++ "_" ++ v) true lines).2 =
        (AsnBlock.populate_loop asn ("ASN" ++ toString asn ++ "_" ++ v) false lines).2 := by
      rw [populate_loop_cidrs_eq_cleanup, populate_loop_cidrs_eq_cleanup]
    have hp4t := hp4 true
    have hp4f := hp4 false
    cases hpt : AsnBlock.populate_loop asn ("ASN" ++ toString asn ++ "_" ++ v) true lines with
    | mk e1 r1 =>
      cases hpf : AsnBlock.populate_loop asn ("ASN" ++ toString asn ++ "_" ++ v) false lines with
      | mk e2 r2 =>
        rw [hpt, hpf] at hres
        dsimp only at hres
        subst hres
        rw [hpt] at hp1 hp2 hp4t
        rw [hpf] at hp1 hp3 hp4f hp5
        dsimp only at hp1 hp2 hp3 hp4t hp4f hp5
        cases r1 with
        | none =>
          dsimp only
          refine ⟨?_, ?_, ?_, ?_, rfl⟩
          · rw [wouldTrace_append, mutTrace_append, hcr.1.1, hp1]
          · rw [mutTrace_append, hcr.1.2.1, hp2]
            rfl
          · rw [wouldTrace_append, hcr.1.2.2, hp3]
            rfl
          · intro d
            cases d
            · rw [hpf]
              dsimp only
              rw [fetchTrace_append, hcr.2.2 false, hp4f]
              rfl
            · rw [hpt]
              dsimp only
              rw [fetchTrace_append, hcr.2.2 true, hp4t]
              rfl
        | some cidr_list =>
          dsimp only
          have hcmd : (if v = "v4" then BIN_IPTABLES else BIN_IP6TABLES) = BIN_IPTABLES ∨
              (if v = "v4" then BIN_IPTABLES else BIN_IP6TABLES) = BIN_IP6TABLES := by
            by_cases hv : v = "v4" <;> simp [hv]
          have hrule :
              DryFaithful (fun d =>
                if fw = "iptables" then
                  AsnBlock.apply_iptables_rule (if v = "v4" then BIN_IPTABLES else BIN_IP6TABLES)
                    ("ASN" ++ toString asn ++ "_" ++ v) d
                else if fw = "firewalld" then
                  AsnBlock.apply_firewalld_rule ("ASN" ++ toString asn ++ "_" ++ v) d
                else if fw = "ufw" then AsnBlock.apply_ufw_rule cidr_list d
                else []) ∧
              (∀ d, fetchTrace
                (if fw = "iptables" then
                  AsnBlock.apply_iptables_rule (if v = "v4" then BIN_IPTABLES else BIN_IP6TABLES)
                    ("ASN" ++ toString asn ++ "_" ++ v) d
                else if fw = "firewalld" then
                  AsnBlock.apply_firewalld_rule ("ASN" ++ toString asn ++ "_" ++ v) d
                else if fw = "ufw" then AsnBlock.apply_ufw_rule cidr_list d
                else []) = []) := by
            by_cases h1 : fw = "iptables"
            · simpa [h1] using apply_iptables_rule_spec _ _ hcmd
            · by_cases h2 : fw = "firewalld"
              · simpa [h1, h2] using apply_firewalld_rule_spec ("ASN" ++ toString asn ++ "_" ++ v)
              · by_cases h3 : fw = "ufw"
                · simpa [h1, h2, h3] using apply_ufw_rule_spec cidr_list
                · refine ⟨⟨?_, ?_, ?_⟩, ?_⟩ <;> simp [h1, h2, h3, mutTrace_nil, wouldTrace_nil, fetchTrace_nil]
          obtain ⟨⟨hr1, hr2, hr3⟩, hr4⟩ := hrule
          refine ⟨?_, ?_, ?_, ?_, rfl⟩
          · rw [wouldTrace_append, wouldTrace_append, mutTrace_append, mutTrace_append,
              hcr.1.1, hp1, hr1]
          · rw [mutTrace_append, mutTrace_append, hcr.1.2.1, hp2, hr2]
            rfl
          · rw [wouldTrace_append, wouldTrace_append, hcr.1.2.2, hp3, hr3]
            rfl
          · intro d
            cases d
            · rw [hpf]
              dsimp only
              rw [fetchTrace_append, fetchTrace_append, hcr.2.2 false, hp4f, hr4 false]
              rfl
            · rw [hpt]
              dsimp only
              rw [fetchTrace_append, fetchTrace_append, hcr.2.2 true, hp4t, hr4 true]
              rfl

theorem cleanup_version_spec (s : AsnBlock.SystemState) (asn : Nat) (fw v : String) :
    wouldTrace (AsnBlock.cleanup_version s asn fw v true).1 =
      mutTrace (AsnBlock.cleanup_version s asn fw v false).1 ∧
    mutTrace (AsnBlock.cleanup_version s asn fw v true).1 = [] ∧
    wouldTrace (AsnBlock.cleanup_version s asn fw v false).1 = [] ∧
    (∀ d, fetchTrace (AsnBlock.cleanup_version s asn fw v d).1 = []) ∧
    (AsnBlock.cleanup_version s asn fw v true).2 =
      (AsnBlock.cleanup_version s asn fw v false).2 := by
  unfold AsnBlock.cleanup_version
  cases hds : AsnBlock.dataset_file s v with
  | none => exact ⟨rfl, rfl, rfl, fun d => rfl, rfl⟩
  | some lines =>
    dsimp only
    cases hcl : AsnBlock.cleanup_cidr_loop asn lines with
    | none => exact ⟨rfl, rfl, rfl, fun d => rfl, rfl⟩
    | some cidr_list =>
      dsimp only
      have hcmd : (if v = "v4" then BIN_IPTABLES else BIN_IP6TABLES) = BIN_IPTABLES ∨
          (if v = "v4" then BIN_IPTABLES else BIN_IP6TABLES) = BIN_IP6TABLES := by
        by_cases hv : v = "v4" <;> simp [hv]
      have hrule :
          DryFaithful (fun d =>
            if fw = "iptables" then
              AsnBlock.remove_iptables_rule (if v = "v4" then BIN_IPTABLES else BIN_IP6TABLES)
                ("ASN" ++ toString asn ++ "_" ++ v) d
            else if fw = "firewalld" then
              AsnBlock.remove_firewalld_rule ("ASN" ++ toString asn ++ "_" ++ v) d
            else if fw = "ufw" then AsnBlock.remove_ufw_rule cidr_list d
            else []) ∧
          (∀ d, fetchTrace
            (if fw = "iptables" then
              AsnBlock.remove_iptables_rule (if v = "v4" then BIN_IPTABLES else BIN_IP6TABLES)
                ("ASN" ++ toString asn ++ "_" ++ v) d
            else if fw = "firewalld" then
              AsnBlock.remove_firewalld_rule ("ASN" ++ toString asn ++ "_" ++ v) d
            else if fw = "ufw" then AsnBlock.remove_ufw_rule cidr_list d
            else []) = []) := by
        by_cases h1 : fw = "iptables"
        · simpa [h1] using remove_iptables_rule_spec _ _ hcmd
        · by_cases h2 : fw = "firewalld"
          · simpa [h1, h2] using remove_firewalld_rule_spec ("ASN" ++ toString asn ++ "_" ++ v)
          · by_cases h3 : fw = "ufw"
            · simpa [h1, h2, h3] using remove_ufw_rule_spec cidr_list
            · refine ⟨⟨?_, ?_, ?_⟩, ?_⟩ <;>
                simp [h1, h2, h3, mutTrace_nil, wouldTrace_nil, fetchTrace_nil]
      obtain ⟨⟨hr1, hr2, hr3⟩, hr4⟩ := hrule
      have hdm : mutatingCmd [BIN_IPSET, "destroy", "ASN" ++ toString asn ++ "_" ++ v] = true :=
        mutatingCmd_ipset_cons _ _ (by simp)
      refine ⟨?_, ?_, ?_, ?_, rfl⟩
      · rw [wouldTrace_append, mutTrace_append, hr1]
        simp [wouldTrace_cons_would, mutTrace_cons_run, hdm, wouldTrace_nil, mutTrace_nil]
      · rw [mutTrace_append, hr2]
        simp [mutTrace_cons_would, mutTrace_nil]
      · rw [wouldTrace_append, hr3]
        simp [wouldTrace_cons_run, wouldTrace_nil]
      · intro d
        rw [fetchTrace_append, hr4 d]
        cases d <;>
          simp [fetchTrace_cons_run, fetchTrace_cons_would, fetchTrace_nil]

theorem cleanup_version_missing (s : AsnBlock.SystemState) (asn : Nat) (fw v : String)
    (d : Bool) (hds : AsnBlock.dataset_file s v = none) :
    AsnBlock.cleanup_version s asn fw v d = ([], none) := by
  unfold AsnBlock.cleanup_version
  rw [hds]

theorem create_unfold_invalid (s : AsnBlock.SystemState) (asn : Nat) (d : Bool)
    (hv : AsnBlock.validate_asn asn = false) :
    AsnBlock.create_ipset_and_rules s asn d = ([], some ()) := by
  unfold AsnBlock.create_ipset_and_rules
  rw [if_pos (by simp [hv])]

theorem create_unfold_conflict (s : AsnBlock.SystemState) (asn : Nat) (d : Bool)
    (hv : AsnBlock.validate_asn asn = true)
    (hcon : (AsnBlock.detect_firewall_backend s).2 = "conflict") :
    AsnBlock.create_ipset_and_rules s asn d =
      ((AsnBlock.detect_firewall_backend s).1, some ()) := by
  unfold AsnBlock.create_ipset_and_rules
  rw [if_neg (by simp [hv]), if_pos hcon]

theorem create_unfold_main (s : AsnBlock.SystemState) (asn : Nat) (d : Bool)
    (hv : AsnBlock.validate_asn asn = true)
    (hcon : (AsnBlock.detect_firewall_backend s).2 ≠ "conflict") :
    AsnBlock.create_ipset_and_rules s asn d =
      match AsnBlock.block_version (AsnBlock.ensure_datasets s).2 asn
          (AsnBlock.detect_firewall_backend s).2 "v4" d with
      | (t4, none) =>
        ((AsnBlock.detect_firewall_backend s).1 ++ (AsnBlock.ensure_datasets s).1 ++ t4, none)
      | (t4, some _) =>
        match AsnBlock.block_version (AsnBlock.ensure_datasets s).2 asn
            (AsnBlock.detect_firewall_backend s).2 "v6" d with
        | (t6, r) =>
          ((AsnBlock.detect_firewall_backend s).1 ++ (AsnBlock.ensure_datasets s).1 ++
            t4 ++ t6, r) := by
  unfold AsnBlock.create_ipset_and_rules
  rw [if_neg (by simp [hv]), if_neg hcon]

theorem cleanup_unfold_invalid (s : AsnBlock.SystemState) (asn : Nat) (d : Bool)
    (hv : AsnBlock.validate_asn asn = false) :
    AsnBlock.cleanup_ipsets s asn d = ([], some ()) := by
  unfold AsnBlock.cleanup_ipsets
  rw [if_pos (by simp [hv])]

theorem cleanup_unfold_conflict (s : AsnBlock.SystemState) (asn : Nat) (d : Bool)
    (hv : AsnBlock.validate_asn asn = true)
    (hcon : (AsnBlock.detect_firewall_backend s).2 = "conflict") :
    AsnBlock.cleanup_ipsets s asn d =
      ((AsnBlock.detect_firewall_backend s).1, some ()) := by
  unfold AsnBlock.cleanup_ipsets
  rw [if_neg (by simp [hv]), if_pos hcon]

theorem cleanup_unfold_main (s : AsnBlock.SystemState) (asn : Nat) (d : Bool)
    (hv : AsnBlock.validate_asn asn = true)
    (hcon : (AsnBlock.detect_firewall_backend s).2 ≠ "conflict") :
    AsnBlock.cleanup_ipsets s asn d =
      match AsnBlock.cleanup_version s asn (AsnBlock.detect_firewall_backend s).2 "v4" d with
      | (t4, none) => ((AsnBlock.detect_firewall_backend s).1 ++ t4, none)
      | (t4, some _) =>
        match AsnBlock.cleanup_version s asn (AsnBlock.detect_firewall_backend s).2 "v6" d with
        | (t6, r) => ((AsnBlock.detect_firewall_backend s).1 ++ t4 ++ t6, r) := by
  unfold AsnBlock.cleanup_ipsets
  rw [if_neg (by simp [hv]), if_neg hcon]

theorem create_ipset_and_rules_purity (s : AsnBlock.SystemState) (asn : Nat) :
    wouldTrace (AsnBlock.create_ipset_and_rules s asn true).1 =
      mutTrace (AsnBlock.create_ipset_and_rules s asn false).1 ∧
    mutTrace (AsnBlock.create_ipset_and_rules s asn true).1 = [] ∧
    wouldTrace (AsnBlock.create_ipset_and_rules s asn false).1 = [] := by
  by_cases hv : AsnBlock.validate_asn asn = true
  · have hd := detect_firewall_backend_trace s
    have he := ensure_datasets_spec s
    by_cases hcon : (AsnBlock.detect_firewall_backend s).2 = "conflict"
    · rw [create_unfold_conflict s asn true hv hcon, create_unfold_conflict s asn false hv hcon]
      exact ⟨by rw [hd.2.1, hd.1], by rw [hd.1], by rw [hd.2.1]⟩
    · rw [create_unfold_main s asn true hv hcon, create_unfold_main s asn false hv hcon]
      have hb4 := block_version_spec (AsnBlock.ensure_datasets s).2 asn
        (AsnBlock.detect_firewall_backend s).2 "v4"
      have hb6 := block_version_spec (AsnBlock.ensure_datasets s).2 asn
        (AsnBlock.detect_firewall_backend s).2 "v6"
      obtain ⟨hb41, hb42, hb43, hb44, hb45⟩ := hb4
      obtain ⟨hb61, hb62, hb63, hb64, hb65⟩ := hb6
      cases h4t : AsnBlock.block_version (AsnBlock.ensure_datasets s).2 asn
          (AsnBlock.detect_firewall_backend s).2 "v4" true with
      | mk a4 r4t =>
        cases h4f : AsnBlock.block_version (AsnBlock.ensure_datasets s).2 asn
            (AsnBlock.detect_firewall_backend s).2 "v4" false with
        | mk b4 r4f =>
          rw [h4t, h4f] at hb45
          dsimp only at hb45
          subst hb45
          rw [h4t] at hb41 hb42
          rw [h4f] at hb41 hb43
          dsimp only at hb41 hb42 hb43
          cases r4t with
          | none =>
            dsimp only
            refine ⟨?_, ?_, ?_⟩
            · rw [wouldTrace_append, wouldTrace_append, mutTrace_append, mutTrace_append,
                hd.1, hd.2.1, he.1, he.2.1, hb41]
            · rw [mutTrace_append, mutTrace_append, hd.1, he.1, hb42]
              rfl
            · rw [wouldTrace_append, wouldTrace_append, hd.2.1, he.2.1, hb43]
              rfl
          | some u4 =>
            dsimp only
            cases h6t : AsnBlock.block_version (AsnBlock.ensure_datasets s).2 asn
                (AsnBlock.detect_firewall_backend s).2 "v6" true with
            | mk a6 r6t =>
              cases h6f : AsnBlock.block_version (AsnBlock.ensure_datasets s).2 asn
                  (AsnBlock.detect_firewall_backend s).2 "v6" false with
              | mk b6 r6f =>
                rw [h6t] at hb61 hb62
                rw [h6f] at hb61 hb63
                dsimp only at hb61 hb62 hb63
                refine ⟨?_, ?_, ?_⟩
                · rw [wouldTrace_append, wouldTrace_append, wouldTrace_append,
                    mutTrace_append, mutTrace_append, mutTrace_append,
                    hd.1, hd.2.1, he.1, he.2.1, hb41, hb61]
                · rw [mutTrace_append, mutTrace_append, mutTrace_append, hd.1, he.1,
                    hb42, hb62]
                  rfl
                · rw [wouldTrace_append, wouldTrace_append, wouldTrace_append, hd.2.1,
                    he.2.1, hb43, hb63]
                  rfl
  · have hv' : AsnBlock.validate_asn asn = false := by
      cases h : AsnBlock.validate_asn asn
      · rfl
      · exact absurd h hv
    rw [create_unfold_invalid s asn true hv', create_unfold_invalid s asn false hv']
    exact ⟨rfl, rfl, rfl⟩

theorem cleanup_ipsets_purity (s : AsnBlock.SystemState) (asn : Nat) :
    wouldTrace (AsnBlock.cleanup_ipsets s asn true).1 =
      mutTrace (AsnBlock.cleanup_ipsets s asn false).1 ∧
    mutTrace (AsnBlock.cleanup_ipsets s asn true).1 = [] ∧
    wouldTrace (AsnBlock.cleanup_ipsets s asn false).1 = [] := by
  by_cases hv : AsnBlock.validate_asn asn = true
  · have hd := detect_firewall_backend_trace s
    by_cases hcon : (AsnBlock.detect_firewall_backend s).2 = "conflict"
    · rw [cleanup_unfold_conflict s asn true hv hcon,
        cleanup_unfold_conflict s asn false hv hcon]
      exact ⟨by rw [hd.2.1, hd.1], by rw [hd.1], by rw [hd.2.1]⟩
    · rw [cleanup_unfold_main s asn true hv hcon, cleanup_unfold_main s asn false hv hcon]
      have hb4 := cleanup_version_spec s asn (AsnBlock.detect_firewall_backend s).2 "v4"
      have hb6 := cleanup_version_spec s asn (AsnBlock.detect_firewall_backend s).2 "v6"
      obtain ⟨hb41, hb42, hb43, hb44, hb45⟩ := hb4
      obtain ⟨hb61, hb62, hb63, hb64, hb65⟩ := hb6
      cases h4t : AsnBlock.cleanup_version s asn
          (AsnBlock.detect_firewall_backend s).2 "v4" true with
      | mk a4 r4t =>
        cases h4f : AsnBlock.cleanup_version s asn
            (AsnBlock.detect_firewall_backend s).2 "v4" false with
        | mk b4 r4f =>
          rw [h4t, h4f] at hb45
          dsimp only at hb45
          subst hb45
          rw [h4t] at hb41 hb42
          rw [h4f] at hb41 hb43
          dsimp only at hb41 hb42 hb43
          cases r4t with
          | none =>
            dsimp only
            refine ⟨?_, ?_, ?_⟩
            · rw [wouldTrace_append, mutTrace_append, hd.1, hd.2.1, hb41]
            · rw [mutTrace_append, hd.1, hb42]
              rfl
            · rw [wouldTrace_append, hd.2.1, hb43]
              rfl
          | some u4 =>
            dsimp only
            cases h6t : AsnBlock.cleanup_version s asn
                (AsnBlock.detect_firewall_backend s).2 "v6" true with
            | mk a6 r6t =>
              cases h6f : AsnBlock.cleanup_version s asn
                  (AsnBlock.detect_firewall_backend s).2 "v6" false with
              | mk b6 r6f =>
                rw [h6t] at hb61 hb62
                rw [h6f] at hb61 hb63
                dsimp only at hb61 hb62 hb63
                refine ⟨?_, ?_, ?_⟩
                · rw [wouldTrace_append, wouldTrace_append, mutTrace_append, mutTrace_append,
                    hd.1, hd.2.1, hb41, hb61]
                · rw [mutTrace_append, mutTrace_append, hd.1, hb42, hb62]
                  rfl
                · rw [wouldTrace_append, wouldTrace_append, hd.2.1, hb43, hb63]
                  rfl
  · have hv' : AsnBlock.validate_asn asn = false := by
      cases h : AsnBlock.validate_asn asn
      · rfl
      · exact absurd h hv
    rw [cleanup_unfold_invalid s asn true hv', cleanup_unfold_invalid s asn false hv']
    exact ⟨rfl, rfl, rfl⟩

theorem string_append_assoc (a b c : String) : a ++ b ++ c = a ++ (b ++ c) := by
  cases a with
  | mk da =>
    cases b with
    | mk db =>
      cases c with
      | mk dc =>
        show String.mk (da ++ db ++ dc) = String.mk (da ++ (db ++ dc))
        rw [List.append_assoc]

theorem block_version_result_some (s : AsnBlock.SystemState) (asn : Nat)
    (fw v : String) (d : Bool) (lines cl : List String)
    (hds : AsnBlock.dataset_file s v = some lines)
    (hcl : AsnBlock.cleanup_cidr_loop asn lines = some cl) :
    (AsnBlock.block_version s asn fw v d).2 = some () := by
  unfold AsnBlock.block_version
  rw [hds]
  dsimp only
  have hpl : (AsnBlock.populate_loop asn ("ASN" ++ toString asn ++ "_" ++ v) d lines).2 =
      some cl := by
    rw [populate_loop_cidrs_eq_cleanup]
    exact hcl
  cases hp : AsnBlock.populate_loop asn ("ASN" ++ toString asn ++ "_" ++ v) d lines with
  | mk e r =>
    rw [hp] at hpl
    dsimp only at hpl
    subst hpl
    rfl

theorem block_version_unknown_mutTrace (s : AsnBlock.SystemState) (asn : Nat)
    (v : String) (lines cl : List String)
    (hds : AsnBlock.dataset_file s v = some lines)
    (hcl : AsnBlock.cleanup_cidr_loop asn lines = some cl) :
    mutTrace (AsnBlock.block_version s asn "unknown" v false).1 =
      (if s.ipsetListOk ("ASN" ++ toString asn ++ "_" ++ v) then
        [[BIN_IPSET, "destroy", "ASN" ++ toString asn ++ "_" ++ v]] else []) ++
      [[BIN_IPSET, "create", "ASN" ++ toString asn ++ "_" ++ v, "hash:net", "family",
        if v = "v6" then "inet6" else "inet"]] ++
      cl.map (fun c => [BIN_IPSET, "add", "ASN" ++ toString asn ++ "_" ++ v, c]) := by
  unfold AsnBlock.block_version
  rw [hds]
  dsimp only
  have hcr := create_or_reset_ipset_spec s ("ASN" ++ toString asn ++ "_" ++ v) v
  have hps := populate_loop_spec asn ("ASN" ++ toString asn ++ "_" ++ v) lines
  have hpl : (AsnBlock.populate_loop asn ("ASN" ++ toString asn ++ "_" ++ v) false lines).2 =
      some cl := by
    rw [populate_loop_cidrs_eq_cleanup]
    exact hcl
  cases hp : AsnBlock.populate_loop asn ("ASN" ++ toString asn ++ "_" ++ v) false lines with
  | mk e r =>
    rw [hp] at hpl
    dsimp only at hpl
    subst hpl
    have hmt : mutTrace e = cl.map (fun c =>
        [BIN_IPSET, "add", "ASN" ++ toString asn ++ "_" ++ v, c]) := by
      have := hps.2.2.2.2 cl
      rw [hp] at this
      exact this rfl
    dsimp only
    rw [if_neg (by simp), if_neg (by simp), if_neg (by simp)]
    rw [mutTrace_append, mutTrace_append, hcr.2.1, hmt, mutTrace_nil, List.append_nil]

theorem cleanup_version_unknown (s : AsnBlock.SystemState) (asn : Nat)
    (v : String) (lines cl : List String)
    (hds : AsnBlock.dataset_file s v = some lines)
    (hcl : AsnBlock.cleanup_cidr_loop asn lines = some cl) :
    (AsnBlock.cleanup_version s asn "unknown" v false).2 = some () ∧
    mutTrace (AsnBlock.cleanup_version s asn "unknown" v false).1 =
      [[BIN_IPSET, "destroy", "ASN" ++ toString asn ++ "_" ++ v]] := by
  unfold AsnBlock.cleanup_version
  rw [hds]
  dsimp only
  rw [hcl]
  dsimp only
  constructor
  · rfl
  · rw [if_neg (show ¬("unknown" : String) = "iptables" by simp),
      if_neg (show ¬("unknown" : String) = "firewalld" by simp),
      if_neg (show ¬("unknown" : String) = "ufw" by simp),
      if_neg (show ¬false = true by simp)]
    rw [mutTrace_append, mutTrace_nil, List.nil_append, mutTrace_cons_run,
      if_pos (mutatingCmd_ipset_cons _ _ (by simp))]
    rfl

/-! ## Claim theorems: backend exclusivity (C3) -/

/-- C3: if at most one backend (firewalld, ufw, or the iptables pair)
reports active, `detect_firewall_backend` returns that backend — or
`"unknown"`, the code's name for the spec's `none`, when none is active —
and never `"conflict"`; if two or more report active it returns
`"conflict"`, and in that case neither the block nor the unblock operation
issues any mutating command. -/
theorem backend_exclusivity (s : AsnBlock.SystemState) (asn : Nat) (dry_run : Bool) :
    (2 ≤ backendActiveCount s →
      (AsnBlock.detect_firewall_backend s).2 = "conflict") ∧
    (backendActiveCount s ≤ 1 →
      (AsnBlock.detect_firewall_backend s).2 ≠ "conflict" ∧
      (s.firewalldActive = true →
        (AsnBlock.detect_firewall_backend s).2 = "firewalld") ∧
      (s.ufwActive = true → (AsnBlock.detect_firewall_backend s).2 = "ufw") ∧
      ((s.iptablesActive || s.ip6tablesActive) = true →
        (AsnBlock.detect_firewall_backend s).2 = "iptables") ∧
      (backendActiveCount s = 0 →
        (AsnBlock.detect_firewall_backend s).2 = "unknown")) ∧
    ((AsnBlock.detect_firewall_backend s).2 = "conflict" →
      mutTrace (AsnBlock.create_ipset_and_rules s asn dry_run).1 = [] ∧
      mutTrace (AsnBlock.cleanup_ipsets s asn dry_run).1 = []) := by
  refine ⟨?_, ?_, ?_⟩
  · obtain ⟨f, u, i4, i6, lok, d4, d6, r4, r6⟩ := s
    cases f <;> cases u <;> cases i4 <;> cases i6 <;>
      simp [backendActiveCount, AsnBlock.detect_firewall_backend,
        AsnBlock.is_service_active, AsnBlock.serviceActive]
  · obtain ⟨f, u, i4, i6, lok, d4, d6, r4, r6⟩ := s
    cases f <;> cases u <;> cases i4 <;> cases i6 <;>
      simp [backendActiveCount, AsnBlock.detect_firewall_backend,
        AsnBlock.is_service_active, AsnBlock.serviceActive]
  · intro hcon
    by_cases hv : AsnBlock.validate_asn asn = true
    · rw [create_unfold_conflict s asn dry_run hv hcon,
        cleanup_unfold_conflict s asn dry_run hv hcon]
      exact ⟨(detect_firewall_backend_trace s).1, (detect_firewall_backend_trace s).1⟩
    · have hv' : AsnBlock.validate_asn asn = false := by
        cases h : AsnBlock.validate_asn asn
        · rfl
        · exact absurd h hv
      rw [create_unfold_invalid s asn dry_run hv', cleanup_unfold_invalid s asn dry_run hv']
      exact ⟨rfl, rfl⟩

/-- Witness for C3 in a state where both firewalld and ufw report active:
detection returns conflict and both operations issue no mutating command. -/
theorem backend_exclusivity_witness :
    2 ≤ backendActiveCount conflictState ∧
    (AsnBlock.detect_firewall_backend conflictState).2 = "conflict" ∧
    mutTrace (AsnBlock.create_ipset_and_rules conflictState 64500 false).1 = [] ∧
    mutTrace (AsnBlock.cleanup_ipsets conflictState 64500 false).1 = [] := by
  have h := backend_exclusivity conflictState 64500 false
  have hdet := h.1 (by decide)
  have hmut := h.2.2 hdet
  exact ⟨by decide, hdet, hmut.1, hmut.2⟩

/-! ## Claim theorems: dry-run purity (C4) -/

/-- C4 counterexample: in `iptables_asn_block.py`, `unblock --dry-run`
still mutates: `main` never passes the parsed dry-run flag to
`cleanup_ipsets`, which issues the two rule deletions and two set
destructions and prints no dry-run description at all. -/
theorem iptables_unblock_dry_run_mutates :
    mutTrace (IptablesAsnBlock.main_unblock (some 64500) true) =
      [[BIN_IPTABLES, "-D", "INPUT", "-m", "set", "--match-set", "ASN64500_v4",
        "src", "-j", "DROP"],
       [BIN_IPSET, "destroy", "ASN64500_v4"],
       [BIN_IP6TABLES, "-D", "INPUT", "-m", "set", "--match-set", "ASN64500_v6",
        "src", "-j", "DROP"],
       [BIN_IPSET, "destroy", "ASN64500_v6"]] ∧
    wouldTrace (IptablesAsnBlock.main_unblock (some 64500) true) = [] := by
  decide

/-- C4 amended: in `asn_block.py` (the richer script the spec
consolidates to), block and unblock under simulate mode issue no
state-mutating command, and the sequence of printed would-run command
descriptions equals exactly the sequence of mutating commands the same
invocation issues in live mode on the same state; in
`iptables_asn_block.py` this fails for unblock, whose `cleanup_ipsets`
ignores the dry-run flag and mutates. -/
theorem dry_run_purity_asn_block (s : AsnBlock.SystemState) (asn : Nat) :
    mutTrace (AsnBlock.create_ipset_and_rules s asn true).1 = [] ∧
    wouldTrace (AsnBlock.create_ipset_and_rules s asn true).1 =
      mutTrace (AsnBlock.create_ipset_and_rules s asn false).1 ∧
    wouldTrace (AsnBlock.create_ipset_and_rules s asn false).1 = [] ∧
    mutTrace (AsnBlock.cleanup_ipsets s asn true).1 = [] ∧
    wouldTrace (AsnBlock.cleanup_ipsets s asn true).1 =
      mutTrace (AsnBlock.cleanup_ipsets s asn false).1 ∧
    wouldTrace (AsnBlock.cleanup_ipsets s asn false).1 = [] := by
  have h1 := create_ipset_and_rules_purity s asn
  have h2 := cleanup_ipsets_purity s asn
  exact ⟨h1.2.1, h1.1, h1.2.2, h2.2.1, h2.1, h2.2.2⟩

/-! ## Claim theorems: dataset fetch on miss (C7) -/

/-- C7 counterexample: with both dataset files missing, the unblock
operation does not fetch and fails fatally — `cleanup_ipsets` raises
`FileNotFoundError` opening the v4 dataset (result `none`) and downloads
nothing — while the block operation on the very same state fetches both
datasets and completes. -/
theorem unblock_missing_dataset_fatal :
    (AsnBlock.cleanup_ipsets emptyMissingState 64500 false).2 = none ∧
    fetchTrace (AsnBlock.cleanup_ipsets emptyMissingState 64500 false).1 = [] ∧
    (AsnBlock.create_ipset_and_rules emptyMissingState 64500 false).2 = some () ∧
    fetchTrace (AsnBlock.create_ipset_and_rules emptyMissingState 64500 false).1 =
      [IPTOASN_V4_URL, IPTOASN_V6_URL] := by
  decide

/-- C7 amended: when a needed dataset file is missing, the block operation
triggers the automatic fetch of both datasets and proceeds with the
fetched data; the unblock operation performs no fetch and fails on the
missing dataset — a missing dataset is fatal for unblock. -/
theorem dataset_fetch_asymmetry (s : AsnBlock.SystemState) (asn : Nat) (dry : Bool)
    (c4 c6 : List String)
    (hmiss : s.datasetV4 = none ∨ s.datasetV6 = none)
    (hval : AsnBlock.validate_asn asn = true)
    (hdet : (AsnBlock.detect_firewall_backend s).2 ≠ "conflict")
    (hr4 : AsnBlock.cleanup_cidr_loop asn
      (s.remoteV4.filter AsnBlock.dataset_line_keep) = some c4)
    (hr6 : AsnBlock.cleanup_cidr_loop asn
      (s.remoteV6.filter AsnBlock.dataset_line_keep) = some c6) :
    fetchTrace (AsnBlock.create_ipset_and_rules s asn dry).1 =
      [IPTOASN_V4_URL, IPTOASN_V6_URL] ∧
    (AsnBlock.create_ipset_and_rules s asn dry).2 = some () ∧
    (AsnBlock.cleanup_ipsets s asn dry).2 = none ∧
    fetchTrace (AsnBlock.cleanup_ipsets s asn dry).1 = [] := by
  have hd := detect_firewall_backend_trace s
  have he := ensure_datasets_spec s
  have hmiss' : (s.datasetV4.isNone || s.datasetV6.isNone) = true := by
    rcases hmiss with h | h <;> simp [h]
  obtain ⟨hef, hav4, hav6⟩ := he.2.2.1 hmiss'
  have hds4 : AsnBlock.dataset_file (AsnBlock.ensure_datasets s).2 "v4" =
      some (s.remoteV4.filter AsnBlock.dataset_line_keep) := by
    unfold AsnBlock.dataset_file
    rw [if_neg (by simp)]
    exact hav4
  have hds6 : AsnBlock.dataset_file (AsnBlock.ensure_datasets s).2 "v6" =
      some (s.remoteV6.filter AsnBlock.dataset_line_keep) := by
    unfold AsnBlock.dataset_file
    rw [if_pos rfl]
    exact hav6
  have hr4' := block_version_result_some (AsnBlock.ensure_datasets s).2 asn
    (AsnBlock.detect_firewall_backend s).2 "v4" dry _ c4 hds4 hr4
  have hr6' := block_version_result_some (AsnBlock.ensure_datasets s).2 asn
    (AsnBlock.detect_firewall_backend s).2 "v6" dry _ c6 hds6 hr6
  have hb4 := block_version_spec (AsnBlock.ensure_datasets s).2 asn
    (AsnBlock.detect_firewall_backend s).2 "v4"
  have hb6 := block_version_spec (AsnBlock.ensure_datasets s).2 asn
    (AsnBlock.detect_firewall_backend s).2 "v6"
  have hcvf := cleanup_version_spec s asn (AsnBlock.detect_firewall_backend s).2 "v4"
  refine ⟨?_, ?_, ?_, ?_⟩
  · rw [create_unfold_main s asn dry hval hdet]
    cases h4 : AsnBlock.block_version (AsnBlock.ensure_datasets s).2 asn
        (AsnBlock.detect_firewall_backend s).2 "v4" dry with
    | mk t4 r4 =>
      rw [h4] at hr4'
      dsimp only at hr4'
      subst hr4'
      cases h6 : AsnBlock.block_version (AsnBlock.ensure_datasets s).2 asn
          (AsnBlock.detect_firewall_backend s).2 "v6" dry with
      | mk t6 r6 =>
        dsimp only
        have hf4 := hb4.2.2.2.1 dry
        have hf6 := hb6.2.2.2.1 dry
        rw [h4] at hf4
        rw [h6] at hf6
        dsimp only at hf4 hf6
        rw [fetchTrace_append, fetchTrace_append, fetchTrace_append,
          hd.2.2, hef, hf4, hf6]
        rfl
  · rw [create_unfold_main s asn dry hval hdet]
    cases h4 : AsnBlock.block_version (AsnBlock.ensure_datasets s).2 asn
        (AsnBlock.detect_firewall_backend s).2 "v4" dry with
    | mk t4 r4 =>
      rw [h4] at hr4'
      dsimp only at hr4'
      subst hr4'
      cases h6 : AsnBlock.block_version (AsnBlock.ensure_datasets s).2 asn
          (AsnBlock.detect_firewall_backend s).2 "v6" dry with
      | mk t6 r6 =>
        rw [h6] at hr6'
        dsimp only at hr6'
        subst hr6'
        rfl
  · rw [cleanup_unfold_main s asn dry hval hdet]
    rcases hmiss with h4m | h6m
    · have hds : AsnBlock.dataset_file s "v4" = none := by
        unfold AsnBlock.dataset_file
        rw [if_neg (by simp)]
        exact h4m
      rw [cleanup_version_missing s asn _ "v4" dry hds]
    · cases h4 : AsnBlock.cleanup_version s asn
          (AsnBlock.detect_firewall_backend s).2 "v4" dry with
      | mk t4 r4 =>
        cases r4 with
        | none => rfl
        | some u =>
          have hds : AsnBlock.dataset_file s "v6" = none := by
            unfold AsnBlock.dataset_file
            rw [if_pos rfl]
            exact h6m
          rw [cleanup_version_missing s asn _ "v6" dry hds]
  · rw [cleanup_unfold_main s asn dry hval hdet]
    rcases hmiss with h4m | h6m
    · have hds : AsnBlock.dataset_file s "v4" = none := by
        unfold AsnBlock.dataset_file
        rw [if_neg (by simp)]
        exact h4m
      rw [cleanup_version_missing s asn _ "v4" dry hds]
      dsimp only
      rw [fetchTrace_append, hd.2.2]
      rfl
    · cases h4 : AsnBlock.cleanup_version s asn
          (AsnBlock.detect_firewall_backend s).2 "v4" dry with
      | mk t4 r4 =>
        have hf4 := hcvf.2.2.2.1 dry
        rw [h4] at hf4
        dsimp only at hf4
        cases r4 with
        | none =>
          dsimp only
          rw [fetchTrace_append, hd.2.2, hf4]
          rfl
        | some u =>
          have hds : AsnBlock.dataset_file s "v6" = none := by
            unfold AsnBlock.dataset_file
            rw [if_pos rfl]
            exact h6m
          rw [cleanup_version_missing s asn _ "v6" dry hds]
          dsimp only
          rw [fetchTrace_append, fetchTrace_append, hd.2.2, hf4]
          rfl

/-- Witness for the amended C7 with both caches missing and empty remote
datasets. -/
theorem dataset_fetch_asymmetry_witness :
    fetchTrace (AsnBlock.create_ipset_and_rules emptyMissingState 64500 true).1 =
      [IPTOASN_V4_URL, IPTOASN_V6_URL] ∧
    (AsnBlock.create_ipset_and_rules emptyMissingState 64500 true).2 = some () ∧
    (AsnBlock.cleanup_ipsets emptyMissingState 64500 true).2 = none ∧
    fetchTrace (AsnBlock.cleanup_ipsets emptyMissingState 64500 true).1 = [] :=
  dataset_fetch_asymmetry emptyMissingState 64500 true [] []
    (Or.inl rfl) (by decide) (by decide) rfl rfl

/-! ## Claim theorems: ipset lifecycle without a backend (C10) -/

/-- C10: when backend detection yields neither conflict nor a supported
backend (the code's `"unknown"`), block still creates (or resets) and
fully populates the named ipsets of both IP versions — its mutating
commands are exactly the optional destroy, the create, and one add per
summarized CIDR string, per version, so no firewall-rule command is
issued — and unblock still issues exactly the `ipset destroy` of both
named sets. -/
theorem no_backend_ipset_lifecycle (s : AsnBlock.SystemState) (asn : Nat)
    (l4 l6 c4 c6 : List String)
    (hval : AsnBlock.validate_asn asn = true)
    (hdet : (AsnBlock.detect_firewall_backend s).2 = "unknown")
    (h4 : s.datasetV4 = some l4) (h6 : s.datasetV6 = some l6)
    (hc4 : AsnBlock.cleanup_cidr_loop asn l4 = some c4)
    (hc6 : AsnBlock.cleanup_cidr_loop asn l6 = some c6) :
    (AsnBlock.create_ipset_and_rules s asn false).2 = some () ∧
    mutTrace (AsnBlock.create_ipset_and_rules s asn false).1 =
      ((if s.ipsetListOk ("ASN" ++ toString asn ++ "_v4") then
          [[BIN_IPSET, "destroy", "ASN" ++ toString asn ++ "_v4"]] else []) ++
        [[BIN_IPSET, "create", "ASN" ++ toString asn ++ "_v4", "hash:net", "family",
          "inet"]] ++
        c4.map (fun c => [BIN_IPSET, "add", "ASN" ++ toString asn ++ "_v4", c])) ++
      ((if s.ipsetListOk ("ASN" ++ toString asn ++ "_v6") then
          [[BIN_IPSET, "destroy", "ASN" ++ toString asn ++ "_v6"]] else []) ++
        [[BIN_IPSET, "create", "ASN" ++ toString asn ++ "_v6", "hash:net", "family",
          "inet6"]] ++
        c6.map (fun c => [BIN_IPSET, "add", "ASN" ++ toString asn ++ "_v6", c])) ∧
    (AsnBlock.cleanup_ipsets s asn false).2 = some () ∧
    mutTrace (AsnBlock.cleanup_ipsets s asn false).1 =
      [[BIN_IPSET, "destroy", "ASN" ++ toString asn ++ "_v4"],
       [BIN_IPSET, "destroy", "ASN" ++ toString asn ++ "_v6"]] := by
  have hdet' : (AsnBlock.detect_firewall_backend s).2 ≠ "conflict" := by
    rw [hdet]
    simp
  have hn4 : "ASN" ++ toString asn ++ "_" ++ "v4" = "ASN" ++ toString asn ++ "_v4" := by
    rw [string_append_assoc, show ("_" ++ "v4" : String) = "_v4" from rfl]
  have hn6 : "ASN" ++ toString asn ++ "_" ++ "v6" = "ASN" ++ toString asn ++ "_v6" := by
    rw [string_append_assoc, show ("_" ++ "v6" : String) = "_v6" from rfl]
  have hd := detect_firewall_backend_trace s
  have he' : AsnBlock.ensure_datasets s = ([], s) :=
    (ensure_datasets_spec s).2.2.2 (by simp [h4, h6])
  have hds4 : AsnBlock.dataset_file s "v4" = some l4 := by
    unfold AsnBlock.dataset_file
    rw [if_neg (by simp)]
    exact h4
  have hds6 : AsnBlock.dataset_file s "v6" = some l6 := by
    unfold AsnBlock.dataset_file
    rw [if_pos rfl]
    exact h6
  have hbr4 := block_version_result_some s asn "unknown" "v4" false l4 c4 hds4 hc4
  have hbr6 := block_version_result_some s asn "unknown" "v6" false l6 c6 hds6 hc6
  have hbm4 := block_version_unknown_mutTrace s asn "v4" l4 c4 hds4 hc4
  have hbm6 := block_version_unknown_mutTrace s asn "v6" l6 c6 hds6 hc6
  have hcu4 := cleanup_version_unknown s asn "v4" l4 c4 hds4 hc4
  have hcu6 := cleanup_version_unknown s asn "v6" l6 c6 hds6 hc6
  rw [hn4] at hbm4 hcu4
  rw [hn6] at hbm6 hcu6
  refine ⟨?_, ?_, ?_, ?_⟩
  · rw [create_unfold_main s asn false hval hdet', hdet, he']
    dsimp only
    cases hb4 : AsnBlock.block_version s asn "unknown" "v4" false with
    | mk t4 r4 =>
      rw [hb4] at hbr4
      dsimp only at hbr4
      subst hbr4
      cases hb6 : AsnBlock.block_version s asn "unknown" "v6" false with
      | mk t6 r6 =>
        rw [hb6] at hbr6
        dsimp only at hbr6
        subst hbr6
        rfl
  · rw [create_unfold_main s asn false hval hdet', hdet, he']
    dsimp only
    cases hb4 : AsnBlock.block_version s asn "unknown" "v4" false with
    | mk t4 r4 =>
      rw [hb4] at hbr4 hbm4
      dsimp only at hbr4 hbm4
      subst hbr4
      cases hb6 : AsnBlock.block_version s asn "unknown" "v6" false with
      | mk t6 r6 =>
        rw [hb6] at hbr6 hbm6
        dsimp only at hbr6 hbm6
        subst hbr6
        dsimp only
        rw [mutTrace_append, mutTrace_append, mutTrace_append, hd.1, mutTrace_nil,
          hbm4, hbm6]
        simp
  · rw [cleanup_unfold_main s asn false hval hdet', hdet]
    cases hc4' : AsnBlock.cleanup_version s asn "unknown" "v4" false with
    | mk t4 r4 =>
      rw [hc4'] at hcu4
      dsimp only at hcu4
      obtain ⟨hcu4r, hcu4m⟩ := hcu4
      subst hcu4r
      cases hc6' : AsnBlock.cleanup_version s asn "unknown" "v6" false with
      | mk t6 r6 =>
        rw [hc6'] at hcu6
        dsimp only at hcu6
        obtain ⟨hcu6r, hcu6m⟩ := hcu6
        subst hcu6r
        rfl
  · rw [cleanup_unfold_main s asn false hval hdet', hdet]
    cases hc4' : AsnBlock.cleanup_version s asn "unknown" "v4" false with
    | mk t4 r4 =>
      rw [hc4'] at hcu4
      dsimp only at hcu4
      obtain ⟨hcu4r, hcu4m⟩ := hcu4
      subst hcu4r
      cases hc6' : AsnBlock.cleanup_version s asn "unknown" "v6" false with
      | mk t6 r6 =>
        rw [hc6'] at hcu6
        dsimp only at hcu6
        obtain ⟨hcu6r, hcu6m⟩ := hcu6
        subst hcu6r
        dsimp only
        rw [mutTrace_append, mutTrace_append, hd.1, hcu4m, hcu6m]
        rfl

/-- Witness for C10 in a quiescent state with empty cached datasets. -/
theorem no_backend_ipset_lifecycle_witness :
    (AsnBlock.create_ipset_and_rules idleState 64500 false).2 = some () ∧
    (AsnBlock.cleanup_ipsets idleState 64500 false).2 = some () ∧
    mutTrace (AsnBlock.cleanup_ipsets idleState 64500 false).1 =
      [[BIN_IPSET, "destroy", "ASN64500_v4"], [BIN_IPSET, "destroy", "ASN64500_v6"]] := by
  have h := no_backend_ipset_lifecycle idleState 64500 [] [] [] []
    (by decide) (by decide) rfl rfl rfl rfl
  refine ⟨h.1, h.2.2.1, ?_⟩
  rw [h.2.2.2]
  rfl
